import Mathlib

/-!
Verification development for the transferbot repository (Telegram payout bot).

The development shallowly embeds the parts of the source that the verified
properties talk about:

* `src/unnamed/part_000` — the `AtlanticAPIClient` class: retry/backoff logic
  of the axios response interceptor (`shouldRetry`, `retryRequest`) and the
  four client operations (`getBankList`, `checkAccount`, `createTransfer`,
  `checkTransferStatus`) with their result normalization.
* `src/database-manager.js` — the `DatabaseManager` class: `addTransaction`,
  `addDeposit`, `updateTransactionStatus`, `updateDepositStatus`, and the
  save-queue protocol of `save()`.
* `src/index.js` — the `BotManager` wizard handlers
  (`handleCheckAccountWizard`, `handleCreateTransferWizard`,
  `handleCreateDepositWizard`) and the confirmation-callback decode path of
  `handleConfirmTransfer`.

JavaScript runtime primitives used by that code (string trim / toLowerCase,
`JSON.stringify` / `JSON.parse` on the flat field maps the wizards build,
decimal rendering of integers) are modelled explicitly below; machine numbers
are modelled as `Nat` (all quantities involved are non-negative integers and
no arithmetic in the modelled code can overflow the JS safe-integer range on
the inputs the properties quantify over).  Timestamps (`Date.now()`,
`toISOString`) are modelled as an explicit `now : Nat` parameter.
-/

namespace TransferBot

/-! ## JavaScript string primitives used by the modelled code -/

/-- Whitespace recognised by `String.prototype.trim` (ASCII subset; the
modelled user input is quantified over these). -/
def isJsWhitespace (c : Char) : Bool :=
  c = ' ' || c = '\t' || c = '\n' || c = '\r' || c = '\x0b' || c = '\x0c'

/-- Model of `String.prototype.trim` on a character list: drop whitespace
from both ends. -/
def jsTrimList (cs : List Char) : List Char :=
  ((cs.dropWhile isJsWhitespace).reverse.dropWhile isJsWhitespace).reverse

/-- Model of `String.prototype.trim`. -/
def jsTrim (s : String) : String := ⟨jsTrimList s.toList⟩

/-- Model of `String.prototype.toLowerCase` on one character (ASCII range,
which covers the letters the property speaks about). -/
def jsLowerChar (c : Char) : Char :=
  if 65 ≤ c.toNat ∧ c.toNat ≤ 90 then Char.ofNat (c.toNat + 32) else c

/-- Model of `String.prototype.toLowerCase`. -/
def jsLower (s : String) : String := ⟨s.toList.map jsLowerChar⟩

/-- Model of `text.toLowerCase().trim()` as used by the wizard bank-code
steps (src/index.js lines 1591 and 1644). -/
def jsLowerTrim (s : String) : String := jsTrim (jsLower s)

/-- Model of the JS truthiness idiom `s || dflt` for strings: the empty
string is falsy. -/
def jsOrStr (o : Option String) (dflt : String) : String :=
  match o with
  | some s => if s = "" then dflt else s
  | none => dflt

/-- Model of the JS truthiness idiom `n || dflt` for numbers: `0` is falsy. -/
def jsOrNat (o : Option Nat) (dflt : Nat) : Nat :=
  match o with
  | some v => if v = 0 then dflt else v
  | none => dflt

/-- Fueled digit writer: one unit of fuel per digit (the fuel `n + 1` used
below always suffices). -/
def natToDecAux : Nat → Nat → List Char → List Char
  | 0, _, acc => acc
  | fuel + 1, n, acc =>
      if n < 10 then Char.ofNat (48 + n) :: acc
      else natToDecAux fuel (n / 10) (Char.ofNat (48 + n % 10) :: acc)

/-- Decimal digit list of a natural number, most significant first; models
how a JS integer renders in a template literal or in `JSON.stringify`. -/
def natToDec (n : Nat) : List Char := natToDecAux (n + 1) n []

/-- Decimal rendering of a natural number as a string. -/
def natToDecStr (n : Nat) : String := ⟨natToDec n⟩

/-- Numeric value of a digit list, most significant first (the value
`parseInt` produces on an all-digit string). -/
def digitsToNat (ds : List Char) : Nat :=
  ds.foldl (fun a c => 10 * a + (c.toNat - 48)) 0

/-- Model of `parseInt(text.replace(/[^0-9]/g, ''))` as used by the amount
steps (src/index.js lines 1677 and 1738): strip every non-digit character and
parse; the result is `none` exactly when `parseInt` yields `NaN` (no digit
left). -/
def parseAmount (s : String) : Option Nat :=
  let ds := s.toList.filter Char.isDigit
  if ds.isEmpty then none else some (digitsToNat ds)

/-! ## Payment API client (src/unnamed/part_000, class AtlanticAPIClient) -/

/-- Network-level error codes distinguished by `shouldRetry` and
`getErrorMessage`. -/
inductive NetCode where
  | econnaborted
  | econnreset
  | etimedout
  | otherCode
deriving DecidableEq, Repr

/-- Failure of one underlying HTTP attempt: either the server answered with a
non-2xx status (`error.response` present, carrying the response body's
`message` when any), or the request never got a response (`error.request`
present with an error `code`). -/
inductive RequestFailure where
  | httpError (stat : Nat) (bodyMessage : Option String)
  | netError (code : NetCode)
deriving DecidableEq, Repr

/-- Outcome of one underlying HTTP attempt as seen by the axios response
interceptor.  `ok body` is a 2xx response whose `response.data` is `body`
(`none` models a falsy/empty body). -/
inductive AttemptResult (β : Type) where
  | ok (body : Option β)
  | fail (f : RequestFailure)
deriving DecidableEq, Repr

/-- Model of `AtlanticAPIClient.shouldRetry` (src/unnamed/part_000 lines
80-99): retry on ECONNABORTED / ECONNRESET / ETIMEDOUT, HTTP 429, or HTTP
status at least 500. -/
def shouldRetry : RequestFailure → Bool
  | .httpError stat _ => stat == 429 || 500 ≤ stat
  | .netError code =>
      code == .econnaborted || code == .econnreset || code == .etimedout

/-- Backoff delay computed by `retryRequest` (src/unnamed/part_000 line 103):
`Math.min(1000 * Math.pow(2, retryCount), 10000)` where `retryCount` is the
1-based number of the retry being performed. -/
def backoffDelay (retryCount : Nat) : Nat :=
  min (1000 * 2 ^ retryCount) 10000

/-- Trace of one logical client call through the retry loop: how many
underlying HTTP attempts were made, which backoff delays were waited, and the
final outcome handed to the calling method (a 2xx body, or the last error
re-thrown by the interceptor once retries are exhausted). -/
structure RetryTrace (β : Type) where
  attempts : Nat
  delays : List Nat
  outcome : Except RequestFailure (Option β)
deriving Repr

/-- Recursion skeleton of the retry loop, structurally recursive on
`remaining = maxRetries - retryCount`, the number of retries still
permitted: a retryable failure with `remaining = 0` is the exhausted case
(`retryCount < maxRetries` is false). -/
def requestWithRetryAux (oracle : Nat → AttemptResult β) :
    Nat → Nat → RetryTrace β
  | remaining, retryCount =>
      match oracle retryCount with
      | .ok body => ⟨retryCount + 1, [], .ok body⟩
      | .fail f =>
          if shouldRetry f then
            match remaining with
            | 0 => ⟨retryCount + 1, [], .error f⟩
            | r + 1 =>
                let t := requestWithRetryAux oracle r (retryCount + 1)
                ⟨t.attempts, backoffDelay (retryCount + 1) :: t.delays,
                  t.outcome⟩
          else ⟨retryCount + 1, [], .error f⟩

/-- Model of the interceptor retry loop (src/unnamed/part_000 lines 58-77 and
101-118).  `oracle i` is the outcome of the underlying attempt with
`config.retryCount = i` (the first attempt has index 0); on a failure the
request is re-issued with `retryCount + 1` after
`backoffDelay (retryCount + 1)` milliseconds exactly when
`this.shouldRetry(error)` holds and `retryCount < maxRetries`. -/
def requestWithRetry (oracle : Nat → AttemptResult β)
    (maxRetries retryCount : Nat) : RetryTrace β :=
  requestWithRetryAux oracle (maxRetries - retryCount) retryCount

/-- Provider response body shape: `{ status, data, message }` with a boolean
status flag (src/unnamed/part_000 checks `response.data.status`). -/
structure ApiBody (π : Type) where
  status : Bool
  data : Option π
  message : Option String
deriving DecidableEq, Repr

/-- Normalized result every client operation returns:
`{ success, data, message }`. -/
structure ClientResult (δ : Type) where
  success : Bool
  data : δ
  message : String
deriving DecidableEq, Repr

/-- Model of `AtlanticAPIClient.getErrorMessage` (src/unnamed/part_000 lines
359-383) restricted to the two failure shapes that can reach it from the
retry loop. -/
def getErrorMessage : RequestFailure → String
  | .httpError stat bodyMessage =>
      if stat = 401 then "API Key tidak valid"
      else if stat = 403 then "Akses ditolak"
      else if stat = 404 then "Endpoint tidak ditemukan"
      else if stat = 429 then "Terlalu banyak permintaan, coba lagi nanti"
      else if 500 ≤ stat then "Server error, coba lagi nanti"
      else jsOrStr bodyMessage ("HTTP Error " ++ natToDecStr stat)
  | .netError code =>
      if code = .econnaborted then "Timeout, koneksi terputus"
      else if code = .econnreset then "Koneksi direset oleh server"
      else if code = .etimedout then "Koneksi timeout"
      else "Tidak ada response dari server, cek koneksi internet"

/-- Model of `AtlanticAPIClient.getBankList` (src/unnamed/part_000 lines
134-180).  `oracle` abstracts the wire: outcome of each underlying attempt of
this call.  Success requires `response.data && response.data.status`. -/
def getBankList (oracle : Nat → AttemptResult (ApiBody (List π)))
    (maxRetries : Nat) : ClientResult (List π) :=
  match (requestWithRetry oracle maxRetries 0).outcome with
  | .ok (some b) =>
      if b.status then ⟨true, b.data.getD [], jsOrStr b.message "Success"⟩
      else ⟨false, [], jsOrStr b.message "Failed to get bank list"⟩
  | .ok none => ⟨false, [], "Failed to get bank list"⟩
  | .error f => ⟨false, [], getErrorMessage f⟩

/-- Model of `AtlanticAPIClient.checkAccount` (src/unnamed/part_000 lines
183-236).  The `data || \x7b\x7d` default of the source is collapsed into the
`Option` payload. -/
def checkAccount (oracle : Nat → AttemptResult (ApiBody π))
    (maxRetries : Nat) (bankCode accountNumber : String) :
    ClientResult (Option π) :=
  match (requestWithRetry oracle maxRetries 0).outcome with
  | .ok (some b) =>
      if b.status then ⟨true, b.data, jsOrStr b.message "Success"⟩
      else ⟨false, none, jsOrStr b.message "Account check failed"⟩
  | .ok none => ⟨false, none, "Account check failed"⟩
  | .error f => ⟨false, none, getErrorMessage f⟩

/-- Input fields of `createTransfer`; optional fields mirror the `||`
defaults of the source. -/
structure TransferFields where
  ref_id : Option String
  kode_bank : String
  nomor_akun : String
  nama_pemilik : Option String
  nominal : Nat
  email : Option String
  phone : Option String
  note : Option String
deriving DecidableEq, Repr

/-- Model of `AtlanticAPIClient.createTransfer` (src/unnamed/part_000 lines
239-305).  A falsy `kode_bank` / `nomor_akun` / `nominal` throws
`Missing required transfer data`, which the catch block normalizes through
`getErrorMessage` (plain `Error`, so `error.message` is surfaced). -/
def createTransfer (oracle : Nat → AttemptResult (ApiBody π))
    (maxRetries : Nat) (td : TransferFields) : ClientResult (Option π) :=
  if td.kode_bank = "" ∨ td.nomor_akun = "" ∨ td.nominal = 0 then
    ⟨false, none, "Missing required transfer data"⟩
  else
    match (requestWithRetry oracle maxRetries 0).outcome with
    | .ok (some b) =>
        if b.status then
          ⟨true, b.data, jsOrStr b.message "Transfer created successfully"⟩
        else ⟨false, none, jsOrStr b.message "Transfer creation failed"⟩
    | .ok none => ⟨false, none, "Transfer creation failed"⟩
    | .error f => ⟨false, none, getErrorMessage f⟩

/-- Model of `AtlanticAPIClient.checkTransferStatus` (src/unnamed/part_000
lines 308-356).  Note the source tests only `if (response.data)` here — the
provider's `status` flag is not consulted. -/
def checkTransferStatus (oracle : Nat → AttemptResult (ApiBody π))
    (maxRetries : Nat) (transactionId : String) : ClientResult (Option π) :=
  match (requestWithRetry oracle maxRetries 0).outcome with
  | .ok (some b) => ⟨true, b.data, jsOrStr b.message "Status retrieved"⟩
  | .ok none => ⟨false, none, "No data returned"⟩
  | .error f => ⟨false, none, getErrorMessage f⟩

/-! ## Field maps (JS object literals built key by key) -/

/-- Value stored in a wizard field map or metadata object: the modelled code
only ever stores strings and non-negative integers. -/
inductive FieldVal where
  | str (s : String)
  | num (n : Nat)
deriving DecidableEq, Repr

/-- A JS object literal modelled as an insertion-ordered association list. -/
abbrev FieldMap := List (String × FieldVal)

/-- Model of a JS property assignment `obj[k] = v`: update in place when the
key exists, otherwise append (insertion order preserved). -/
def jsSet (m : FieldMap) (k : String) (v : FieldVal) : FieldMap :=
  match m with
  | [] => [(k, v)]
  | (k0, v0) :: rest =>
      if k0 = k then (k0, v) :: rest else (k0, v0) :: jsSet rest k v

/-- Model of the JS object spread `\x7b...old, ...new\x7d`: keys of `old`
keep their position (values overridden by `new` where present), keys of
`new` not in `old` are appended in order. -/
def jsMerge (old new : FieldMap) : FieldMap :=
  old.map (fun p => (p.1, ((new.lookup p.1).getD p.2))) ++
    new.filter (fun q => (old.lookup q.1).isNone)

/-! ## Transaction journal (src/database-manager.js, class DatabaseManager) -/

/-- Stored transaction record, as built by `addTransaction`
(src/database-manager.js lines 269-286).  ISO timestamps are modelled by the
`Nat` clock value they were generated from. -/
structure Tx where
  id : String
  reff_id : String
  user_id : Nat
  kind : String
  bank_code : String
  account_number : String
  account_name : String
  nominal : Nat
  fee : Nat
  total : Nat
  status : String
  category : String
  note : String
  metadata : FieldMap
  created_at : Nat
  updated_at : Nat
deriving DecidableEq, Repr

/-- Stored deposit record, as built by `addDeposit` (src/database-manager.js
lines 315-329).  The source never gives a deposit a `metadata` property at
creation; `updateDepositStatus` spreads into `undefined`, which is modelled
by the empty map. -/
structure Dep where
  id : String
  reff_id : String
  user_id : Nat
  kind : String
  method : String
  nominal : Nat
  fee : Nat
  total : Nat
  status : String
  proof_url : String
  note : String
  metadata : FieldMap
  created_at : Nat
  updated_at : Nat
deriving DecidableEq, Repr

/-- Aggregate counters of `this.data.system` that the journal operations
touch. -/
structure SystemStats where
  successful_transfers : Nat
  successful_deposits : Nat
  total_volume : Nat
deriving DecidableEq, Repr

/-- In-memory journal state (`this.data`) restricted to the collections the
verified operations read or write. -/
structure DB where
  transactions : List Tx
  deposits : List Dep
  system : SystemStats
deriving DecidableEq, Repr

/-- Input of `addTransaction`; `Option` marks the properties the source
defaults when absent or falsy. -/
structure TxInput where
  id : Option String
  reff_id : Option String
  user_id : Nat
  kind : Option String
  bank_code : String
  account_number : String
  account_name : String
  nominal : Nat
  fee : Option Nat
  total : Option Nat
  status : Option String
  category : Option String
  note : Option String
  metadata : Option FieldMap
deriving DecidableEq, Repr

/-- Input of `addDeposit`. -/
structure DepInput where
  id : Option String
  reff_id : Option String
  user_id : Nat
  kind : Option String
  method : Option String
  nominal : Nat
  fee : Option Nat
  total : Option Nat
  status : Option String
  proof_url : Option String
  note : Option String
deriving DecidableEq, Repr

/-- Record constructed by `addTransaction` (src/database-manager.js lines
269-286).  `genId` models the fresh `uuidv4()` and `now` the clock: the
`reff_id` default is the template literal `TRF-` + `Date.now()`. -/
def mkTx (inp : TxInput) (genId : String) (now : Nat) : Tx where
  id := inp.id.getD genId
  reff_id := jsOrStr inp.reff_id ("TRF-" ++ natToDecStr now)
  user_id := inp.user_id
  kind := jsOrStr inp.kind "transfer"
  bank_code := inp.bank_code
  account_number := inp.account_number
  account_name := inp.account_name
  nominal := inp.nominal
  fee := jsOrNat inp.fee 0
  total := jsOrNat inp.total inp.nominal
  status := jsOrStr inp.status "pending"
  category := jsOrStr inp.category "withdrawal"
  note := jsOrStr inp.note ""
  metadata := inp.metadata.getD []
  created_at := now
  updated_at := now

/-- Model of `DatabaseManager.addTransaction` (src/database-manager.js lines
266-309): push the new record unconditionally, then bump the aggregate
counters when its status is already `success`. -/
def addTransaction (db : DB) (inp : TxInput) (genId : String) (now : Nat) :
    Tx × DB :=
  let tx := mkTx inp genId now
  let sys :=
    if tx.status = "success" then
      { db.system with
        successful_transfers := db.system.successful_transfers + 1,
        total_volume := db.system.total_volume + tx.nominal }
    else db.system
  (tx, { db with transactions := db.transactions ++ [tx], system := sys })

/-- Record constructed by `addDeposit` (src/database-manager.js lines
315-329). -/
def mkDep (inp : DepInput) (genId : String) (now : Nat) : Dep where
  id := inp.id.getD genId
  reff_id := jsOrStr inp.reff_id ("DEP-" ++ natToDecStr now)
  user_id := inp.user_id
  kind := jsOrStr inp.kind "deposit"
  method := jsOrStr inp.method "unknown"
  nominal := inp.nominal
  fee := jsOrNat inp.fee 0
  total := jsOrNat inp.total inp.nominal
  status := jsOrStr inp.status "pending"
  proof_url := jsOrStr inp.proof_url ""
  note := jsOrStr inp.note ""
  metadata := []
  created_at := now
  updated_at := now

/-- Model of `DatabaseManager.addDeposit` (src/database-manager.js lines
312-351). -/
def addDeposit (db : DB) (inp : DepInput) (genId : String) (now : Nat) :
    Dep × DB :=
  let dep := mkDep inp genId now
  let sys :=
    if dep.status = "success" then
      { db.system with
        successful_deposits := db.system.successful_deposits + 1,
        total_volume := db.system.total_volume + dep.nominal }
    else db.system
  (dep, { db with deposits := db.deposits ++ [dep], system := sys })

/-- Replace the first element satisfying `p` by its image under `f`,
returning the original element and the updated list; `none` when no element
matches.  Models `Array.prototype.find` followed by in-place mutation of the
found record. -/
def updateFirst (p : α → Bool) (f : α → α) : List α → Option (α × List α)
  | [] => none
  | x :: xs =>
      if p x then some (x, f x :: xs)
      else (updateFirst p f xs).map (fun r => (r.1, x :: r.2))

/-- Lookup predicate of the status-update operations: match by `id` OR by
`reff_id` (src/database-manager.js lines 357 and 393). -/
def matchesId (wanted id reffId : String) : Bool :=
  id == wanted || reffId == wanted

/-- In-place mutation applied to the matched transaction by
`updateTransactionStatus`: set `status`, refresh `updated_at`, merge the
supplied metadata. -/
def applyTxUpdate (status : String) (metadata : FieldMap) (now : Nat)
    (t : Tx) : Tx :=
  { t with
    status := status
    updated_at := now
    metadata := jsMerge t.metadata metadata }

/-- Model of `DatabaseManager.updateTransactionStatus`
(src/database-manager.js lines 354-387): find by id or reference id, mutate
status / updated_at / metadata, and bump the success counters exactly on a
transition from a non-success status into `success`; return `false` and
leave the journal untouched when nothing matches. -/
def updateTransactionStatus (db : DB) (transactionId status : String)
    (metadata : FieldMap) (now : Nat) : Bool × DB :=
  match updateFirst (fun t => matchesId transactionId t.id t.reff_id)
      (applyTxUpdate status metadata now) db.transactions with
  | none => (false, db)
  | some (t, txs) =>
      let sys :=
        if t.status ≠ "success" ∧ status = "success" then
          { db.system with
            successful_transfers := db.system.successful_transfers + 1,
            total_volume := db.system.total_volume + t.nominal }
        else db.system
      (true, { db with transactions := txs, system := sys })

/-- In-place mutation applied to the matched deposit by
`updateDepositStatus`. -/
def applyDepUpdate (status : String) (metadata : FieldMap) (now : Nat)
    (d : Dep) : Dep :=
  { d with
    status := status
    updated_at := now
    metadata := jsMerge d.metadata metadata }

/-- Model of `DatabaseManager.updateDepositStatus` (src/database-manager.js
lines 390-423). -/
def updateDepositStatus (db : DB) (depositId status : String)
    (metadata : FieldMap) (now : Nat) : Bool × DB :=
  match updateFirst (fun d => matchesId depositId d.id d.reff_id)
      (applyDepUpdate status metadata now) db.deposits with
  | none => (false, db)
  | some (d, deps) =>
      let sys :=
        if d.status ≠ "success" ∧ status = "success" then
          { db.system with
            successful_deposits := db.system.successful_deposits + 1,
            total_volume := db.system.total_volume + d.nominal }
        else db.system
      (true, { db with deposits := deps, system := sys })

/-! ## Save-queue protocol (src/database-manager.js, DatabaseManager.save) -/

/-- Observable state of the `save()` concurrency protocol.  `activeWrites`
holds the callers currently between acquiring the lock and running their
`finally` block (each is one in-flight write of the backing file);
`saveQueue` holds the resolve functions queued while the lock was taken;
`released` lists, in order, the callers whose `save()` promise has
resolved. -/
structure SaveState where
  lock : Bool
  saveQueue : List Nat
  activeWrites : List Nat
  released : List Nat
deriving DecidableEq, Repr

/-- State before any save request. -/
def initialSaveState : SaveState := ⟨false, [], [], []⟩

/-- Model of entering `DatabaseManager.save` (src/database-manager.js lines
122-130): with the lock taken the caller's resolve is pushed (FIFO) onto
`saveQueue` and no write starts; otherwise the caller takes the lock and
begins a write. -/
def saveCall (s : SaveState) (c : Nat) : SaveState :=
  if s.lock then { s with saveQueue := s.saveQueue ++ [c] }
  else { s with lock := true, activeWrites := s.activeWrites ++ [c] }

/-- Model of an in-flight write finishing, i.e. the `finally` block of
`save()` (src/database-manager.js lines 154-162): the writer releases the
lock, its own promise resolves, and — if the queue is non-empty — exactly one
queued resolve (the FIFO head) is popped and called.  The released queued
caller does not itself start a write. -/
def saveFinish (s : SaveState) (c : Nat) : SaveState :=
  if s.activeWrites.contains c then
    let s1 : SaveState :=
      ⟨false, s.saveQueue, s.activeWrites.erase c, s.released ++ [c]⟩
    match s1.saveQueue with
    | [] => s1
    | q :: qs => { s1 with saveQueue := qs, released := s1.released ++ [q] }
  else s

/-- Events of the save protocol. -/
inductive SaveEvent where
  | call (c : Nat)
  | finish (c : Nat)
deriving DecidableEq, Repr

/-- One protocol step. -/
def saveStep (s : SaveState) : SaveEvent → SaveState
  | .call c => saveCall s c
  | .finish c => saveFinish s c

/-- Run a sequence of save-protocol events from the idle state. -/
def runSave (evs : List SaveEvent) : SaveState :=
  evs.foldl saveStep initialSaveState

/-! ## JSON payload serialization (JSON.stringify / JSON.parse on the flat
field maps the wizards build).  The encoder mirrors what `JSON.stringify`
emits for an insertion-ordered object of strings and non-negative integers;
the decoder models `JSON.parse` on that grammar (flat object, string and
integer values, no whitespace). -/

/-- String-character escaping of `JSON.stringify` for the characters the
round-trip properties quantify over (printable characters plus tab, newline
and carriage return). -/
def escChar (c : Char) : List Char :=
  if c = '"' then ['\\', '"']
  else if c = '\\' then ['\\', '\\']
  else if c = '\n' then ['\\', 'n']
  else if c = '\r' then ['\\', 'r']
  else if c = '\t' then ['\\', 't']
  else [c]

/-- Escape a whole character list. -/
def escList (cs : List Char) : List Char :=
  cs.foldr (fun c acc => escChar c ++ acc) []

/-- Characters for which `escChar` agrees with `JSON.stringify` (every
character that stringify does not \u-escape, plus the three escapes
handled explicitly). -/
def goodChar (c : Char) : Bool :=
  32 ≤ c.toNat || c = '\n' || c = '\r' || c = '\t'

/-- Strings covered by the modelled escaping. -/
def goodStr (s : String) : Bool := s.toList.all goodChar

/-- JSON rendering of one field value. -/
def jsonValue : FieldVal → List Char
  | .str s => '"' :: (escList s.toList ++ ['"'])
  | .num n => natToDec n

/-- JSON rendering of the members of an object, comma separated, insertion
order. -/
def jsonMembers : FieldMap → List Char
  | [] => []
  | [(k, v)] => '"' :: (escList k.toList ++ ['"', ':'] ++ jsonValue v)
  | (k, v) :: rest =>
      '"' :: (escList k.toList ++ ['"', ':'] ++ jsonValue v ++
        ',' :: jsonMembers rest)

/-- Model of `JSON.stringify` on a flat field map. -/
def jsonStringify (m : FieldMap) : String :=
  ⟨'\x7b' :: (jsonMembers m ++ ['\x7d'])⟩

/-- Inverse of `escChar` on the character following a backslash, as
`JSON.parse` interprets it. -/
def unescChar (c : Char) : Option Char :=
  if c = '"' then some '"'
  else if c = '\\' then some '\\'
  else if c = 'n' then some '\n'
  else if c = 'r' then some '\r'
  else if c = 't' then some '\t'
  else none

/-- Parse the body of a JSON string (after the opening quote) up to its
closing quote, undoing escapes; returns the content and the rest of the
input. -/
def parseStrBody : List Char → Option (List Char × List Char)
  | [] => none
  | c :: rest =>
      if c = '"' then some ([], rest)
      else if c = '\\' then
        match rest with
        | [] => none
        | e :: rest2 =>
            match unescChar e with
            | none => none
            | some u => (parseStrBody rest2).map (fun p => (u :: p.1, p.2))
      else (parseStrBody rest).map (fun p => (c :: p.1, p.2))

/-- Parse a non-negative JSON integer (a non-empty digit prefix). -/
def parseNum (cs : List Char) : Option (Nat × List Char) :=
  let ds := cs.takeWhile Char.isDigit
  if ds.isEmpty then none
  else some (digitsToNat ds, cs.dropWhile Char.isDigit)

/-- Parse one JSON value of the modelled grammar (string or integer). -/
def parseVal : List Char → Option (FieldVal × List Char)
  | [] => none
  | c :: rest =>
      if c = '"' then (parseStrBody rest).map (fun p => (.str ⟨p.1⟩, p.2))
      else (parseNum (c :: rest)).map (fun p => (.num p.1, p.2))

/-- Parse one `"key":value` member. -/
def parseMember : List Char → Option ((String × FieldVal) × List Char)
  | [] => none
  | c :: rest =>
      if c = '"' then
        match parseStrBody rest with
        | none => none
        | some (k, r1) =>
            match r1 with
            | [] => none
            | c2 :: r2 =>
                if c2 = ':' then
                  (parseVal r2).map (fun p => ((⟨k⟩, p.1), p.2))
                else none
      else none

/-- Parse a comma-separated member list (fuel-indexed; one unit of fuel per
member suffices). -/
def parseMembersF : Nat → List Char → Option (FieldMap × List Char)
  | 0, _ => none
  | fuel + 1, cs =>
      match parseMember cs with
      | none => none
      | some (kv, rest) =>
          match rest with
          | [] => some ([kv], [])
          | c :: rest2 =>
              if c = ',' then
                (parseMembersF fuel rest2).map (fun p => (kv :: p.1, p.2))
              else some ([kv], c :: rest2)

/-- Model of `JSON.parse` on the flat-object grammar the confirmation
payloads use; the whole input must be consumed. -/
def jsonParseObj (s : String) : Option FieldMap :=
  match s.toList with
  | [] => none
  | c :: rest =>
      if c = '\x7b' then
        match rest with
        | [] => none
        | c2 :: rest2 =>
            if c2 = '\x7d' then (if rest2.isEmpty then some [] else none)
            else
              match parseMembersF rest.length rest with
              | none => none
              | some (ms, rtail) =>
                  match rtail with
                  | [] => none
                  | c3 :: tail =>
                      if c3 = '\x7d' then
                        (if tail.isEmpty then some ms else none)
                      else none
      else none

/-- Check that the character list `ps` is an initial segment of `cs`
(models `String.prototype.startsWith` and the effective behaviour of
`data.replace(tag, '')` when `data` begins with `tag`). -/
def startsWithList : List Char → List Char → Bool
  | [], _ => true
  | _ :: _, [] => false
  | p :: ps, c :: cs => p == c && startsWithList ps cs

/-- Model of the decode path of `handleConfirmTransfer` /
`handleConfirmDeposit` (src/index.js lines 1882-1883): the router invokes
them only when the callback data starts with the tag, and
`data.replace(tag, '')` then removes exactly that leading tag (its first
occurrence) before `JSON.parse`. -/
def decodeConfirmCallback (tag payload : String) : Option FieldMap :=
  if startsWithList tag.toList payload.toList then
    jsonParseObj ⟨payload.toList.drop tag.toList.length⟩
  else none

/-! ## Wizard state machine (src/index.js, BotManager wizard handlers) -/

/-- Per-conversation wizard session as stored in `this.userStates`:
`\x7bwizard, step, data\x7d`. -/
structure WizState where
  wizard : String
  step : Nat
  data : FieldMap
deriving DecidableEq, Repr

/-- Observable outcome of feeding one text message to a wizard handler.
`prompt` — the next field is asked for; `validationFailed` — the input was
rejected with an error message; `confirm` — the final confirmation prompt,
carrying the collected field map and the inline-keyboard callback payload;
`apiCheck` — the check-account wizard fires its immediate account-validation
call on the collected data; `noop` — no switch case matched. -/
inductive WizOut where
  | prompt (text : String)
  | validationFailed
  | confirm (kind : String) (data : FieldMap) (callback : String)
  | apiCheck (data : FieldMap)
  | noop
deriving DecidableEq, Repr

/-- Session stored for a fresh wizard of the given kind (src/index.js lines
1157-1161, 1182-1186, 1251-1255). -/
def startState (kind : String) : WizState := ⟨kind, 1, []⟩

/-- Model of `BotManager.handleCheckAccountWizard` (src/index.js lines
1583-1634).  Returns the session stored for this conversation key after the
step (`none` = deleted) and the observable outcome. -/
def handleCheckAccountWizard (st : WizState) (text : String) :
    Option WizState × WizOut :=
  match st.step with
  | 1 =>
      let d := jsSet st.data "bank_code" (.str (jsLowerTrim text))
      (some { st with step := 2, data := d },
        .prompt "Masukkan nomor rekening/akun tujuan:")
  | 2 =>
      let d := jsSet st.data "account_number" (.str (jsTrim text))
      (none, .apiCheck d)
  | _ => (some st, .noop)

/-- Model of `BotManager.handleCreateTransferWizard` (src/index.js lines
1636-1728).  `now` is the `Date.now()` used for the generated `ref_id` at
step 4.  Amount step: strip non-digits, `parseInt`; `NaN` or a value below
the fixed 1000 minimum rejects and deletes the session — no upper bound is
checked. -/
def handleCreateTransferWizard (st : WizState) (text : String) (now : Nat) :
    Option WizState × WizOut :=
  match st.step with
  | 1 =>
      let d := jsSet st.data "kode_bank" (.str (jsLowerTrim text))
      (some { st with step := 2, data := d },
        .prompt "Masukkan nomor rekening/akun tujuan:")
  | 2 =>
      let d := jsSet st.data "nomor_akun" (.str (jsTrim text))
      (some { st with step := 3, data := d },
        .prompt "Masukkan nama pemilik rekening:")
  | 3 =>
      let d := jsSet st.data "nama_pemilik" (.str (jsTrim text))
      (some { st with step := 4, data := d },
        .prompt "Masukkan nominal transfer:")
  | 4 =>
      match parseAmount text with
      | none => (none, .validationFailed)
      | some amount =>
          if amount < 1000 then (none, .validationFailed)
          else
            let d1 := jsSet st.data "nominal" (.num amount)
            let d2 := jsSet d1 "ref_id" (.str ("TRF-" ++ natToDecStr now))
            (none, .confirm "transfer" d2
              ("confirm_transfer:" ++ jsonStringify d2))
  | _ => (some st, .noop)

/-- Model of `BotManager.handleCreateDepositWizard` (src/index.js lines
1730-1796).  `minDeposit` / `maxDeposit` are
`this.db.data.settings.min_deposit` / `.max_deposit`. -/
def handleCreateDepositWizard (st : WizState) (text : String) (now : Nat)
    (minDeposit maxDeposit : Nat) : Option WizState × WizOut :=
  match st.step with
  | 1 =>
      match parseAmount text with
      | none => (none, .validationFailed)
      | some amount =>
          if amount < minDeposit then (none, .validationFailed)
          else if maxDeposit < amount then (none, .validationFailed)
          else
            let d1 := jsSet st.data "nominal" (.num amount)
            let d2 := jsSet d1 "ref_id" (.str ("DEP-" ++ natToDecStr now))
            (none, .confirm "deposit" d2
              ("confirm_deposit:" ++ jsonStringify d2))
  | _ => (some st, .noop)

/-- Chain a wizard result into a further input: feed the text only when a
session survived the previous step. -/
def stepThen (r : Option WizState × WizOut)
    (handler : WizState → Option WizState × WizOut) :
    Option WizState × WizOut :=
  match r.1 with
  | some st => handler st
  | none => r

/-- Run the create_transfer wizard from a fresh session over four inputs
(`now` is the clock at the final step). -/
def runTransferWizard (t1 t2 t3 t4 : String) (now : Nat) :
    Option WizState × WizOut :=
  stepThen (stepThen (stepThen
    (handleCreateTransferWizard (startState "create_transfer") t1 now)
    (fun st => handleCreateTransferWizard st t2 now))
    (fun st => handleCreateTransferWizard st t3 now))
    (fun st => handleCreateTransferWizard st t4 now)

/-- Run the check_account wizard from a fresh session over two inputs. -/
def runCheckAccountWizard (t1 t2 : String) : Option WizState × WizOut :=
  stepThen (handleCheckAccountWizard (startState "check_account") t1)
    (fun st => handleCheckAccountWizard st t2)

/-- Run the create_deposit wizard from a fresh session over its single
input. -/
def runDepositWizard (t1 : String) (now minDeposit maxDeposit : Nat) :
    Option WizState × WizOut :=
  handleCreateDepositWizard (startState "create_deposit") t1 now
    minDeposit maxDeposit

/-! ## Concrete fixtures used by witnesses and counterexamples -/

/-- Sample stored transaction (a pending withdrawal). -/
def sampleTx : Tx :=
  ⟨"X1", "TRF-100", 7, "transfer", "bca", "12345", "Arfi", 5000, 0, 5000,
    "pending", "withdrawal", "", [], 1, 1⟩

/-- Sample stored deposit (pending). -/
def sampleDep : Dep :=
  ⟨"D1", "DEP-100", 7, "deposit", "qris", 2000, 0, 2000, "pending", "", "",
    [], 1, 1⟩

/-- Sample journal holding the two sample records and zeroed counters. -/
def sampleDB : DB := ⟨[sampleTx], [sampleDep], ⟨0, 0, 0⟩⟩

/-- Empty journal with zeroed counters. -/
def emptyDB : DB := ⟨[], [], ⟨0, 0, 0⟩⟩

/-- Sample `addTransaction` input with an explicit id and status `success`. -/
def sampleTxInput : TxInput :=
  ⟨some "X1", some "TRF-100", 7, none, "bca", "12345", "Arfi", 5000, none,
    none, some "success", none, none, none⟩

/-- Sample `addDeposit` input with an explicit id and status `success`. -/
def sampleDepInput : DepInput :=
  ⟨some "D1", some "DEP-100", 7, none, some "qris", 2000, none, none,
    some "success", none, none⟩

/-- Field map collected by a complete create_transfer wizard run on inputs
`t1 t2 t3` with accepted amount `a` and final-step clock `now`. -/
def transferMap (t1 t2 t3 : String) (a now : Nat) : FieldMap :=
  [("kode_bank", .str (jsLowerTrim t1)),
   ("nomor_akun", .str (jsTrim t2)),
   ("nama_pemilik", .str (jsTrim t3)),
   ("nominal", .num a),
   ("ref_id", .str ("TRF-" ++ natToDecStr now))]

/-- Field map collected by a complete create_deposit wizard run with
accepted amount `a` and clock `now`. -/
def depositMap (a now : Nat) : FieldMap :=
  [("nominal", .num a), ("ref_id", .str ("DEP-" ++ natToDecStr now))]

/-- Values covered by the modelled JSON escaping. -/
def goodVal : FieldVal → Bool
  | .str s => goodStr s
  | .num _ => true

/-- Field maps covered by the modelled JSON escaping. -/
def goodMap (m : FieldMap) : Bool :=
  m.all (fun kv => goodStr kv.1 && goodVal kv.2)

end TransferBot

namespace TransferBot

/-! ## Helper lemmas -/

theorem updateFirst_cons (p : α → Bool) (f : α → α) (a : α) (as : List α) :
    updateFirst p f (a :: as) =
      if p a = true then some (a, f a :: as)
      else (updateFirst p f as).map (fun r => (r.1, a :: r.2)) := rfl

theorem updateFirst_of_not_found (p : α → Bool) (f : α → α) :
    ∀ (l : List α), (∀ x ∈ l, p x = false) → updateFirst p f l = none := by
  intro l
  induction l with
  | nil => intro _; rfl
  | cons a as ih =>
      intro h
      have ha : ¬(p a = true) := by simp [h a (by simp)]
      rw [updateFirst_cons, if_neg ha, ih (fun x hx => h x (by simp [hx]))]
      rfl

theorem updateFirst_of_found (p : α → Bool) (f : α → α) :
    ∀ (pre : List α) (t : α) (suf : List α),
      (∀ y ∈ pre, p y = false) → p t = true →
      updateFirst p f (pre ++ t :: suf) = some (t, pre ++ f t :: suf) := by
  intro pre
  induction pre with
  | nil => intro t suf _ ht; simp [updateFirst_cons, ht]
  | cons a as ih =>
      intro t suf hpre ht
      have ha : ¬(p a = true) := by simp [hpre a (by simp)]
      rw [List.cons_append, updateFirst_cons, if_neg ha,
        ih t suf (fun y hy => hpre y (by simp [hy])) ht]
      rfl

theorem updateFirst_some_decomp (p : α → Bool) (f : α → α) :
    ∀ (l : List α) (x : α) (l' : List α),
      updateFirst p f l = some (x, l') →
      ∃ pre suf, l = pre ++ x :: suf ∧ (∀ y ∈ pre, p y = false) ∧
        p x = true ∧ l' = pre ++ f x :: suf := by
  intro l
  induction l with
  | nil => intro x l' h; simp [updateFirst] at h
  | cons a as ih =>
      intro x l' h
      rw [updateFirst_cons] at h
      by_cases hp : p a = true
      · rw [if_pos hp] at h
        have h2 := Option.some.inj h
        have hx : a = x := congrArg Prod.fst h2
        have hl : f a :: as = l' := congrArg Prod.snd h2
        subst hx
        exact ⟨[], as, by simp, by simp, hp, by simp [hl.symm]⟩
      · rw [if_neg hp, Option.map_eq_some'] at h
        obtain ⟨⟨y, ys⟩, hy, heq⟩ := h
        obtain ⟨hx, hl⟩ : y = x ∧ a :: ys = l' := by
          exact ⟨congrArg Prod.fst heq, congrArg Prod.snd heq⟩
        subst hx
        obtain ⟨pre, suf, hl0, hpre, hx0, hl'⟩ := ih y ys hy
        refine ⟨a :: pre, suf, by simp [hl0], ?_, hx0, by simp [hl.symm, hl']⟩
        intro z hz
        rcases List.mem_cons.mp hz with hz | hz
        · subst hz
          simpa using hp
        · exact hpre z hz

/-! ## C5 — status updates: lookup by id or reference id, failure no-op,
success counters bumped exactly on a transition into success -/

/-- C5: for both `updateTransactionStatus` and `updateDepositStatus`, (a) if
no record matches the given id-or-reference-id, the call returns `false` and
leaves the journal unchanged; (b) on the first matching record, a transition
from a non-success status into `success` returns `true`, increments the
corresponding success counter by exactly 1 and adds the record's amount to
`total_volume` exactly once (the other counter untouched); (c) setting
`success` on a record already in status `success` changes no counter and no
volume. -/
theorem C5_updateStatus_counters :
    (∀ (db : DB) (wanted status : String) (md : FieldMap) (now : Nat),
      (∀ t ∈ db.transactions, matchesId wanted t.id t.reff_id = false) →
      updateTransactionStatus db wanted status md now = (false, db)) ∧
    (∀ (db : DB) (wanted : String) (md : FieldMap) (now : Nat)
        (pre : List Tx) (t : Tx) (suf : List Tx),
      db.transactions = pre ++ t :: suf →
      (∀ y ∈ pre, matchesId wanted y.id y.reff_id = false) →
      matchesId wanted t.id t.reff_id = true →
      t.status ≠ "success" →
      (updateTransactionStatus db wanted "success" md now).1 = true ∧
      (updateTransactionStatus db wanted "success" md now).2.system =
        ⟨db.system.successful_transfers + 1, db.system.successful_deposits,
          db.system.total_volume + t.nominal⟩) ∧
    (∀ (db : DB) (wanted : String) (md : FieldMap) (now : Nat)
        (pre : List Tx) (t : Tx) (suf : List Tx),
      db.transactions = pre ++ t :: suf →
      (∀ y ∈ pre, matchesId wanted y.id y.reff_id = false) →
      matchesId wanted t.id t.reff_id = true →
      t.status = "success" →
      (updateTransactionStatus db wanted "success" md now).1 = true ∧
      (updateTransactionStatus db wanted "success" md now).2.system =
        db.system) ∧
    (∀ (db : DB) (wanted status : String) (md : FieldMap) (now : Nat),
      (∀ d ∈ db.deposits, matchesId wanted d.id d.reff_id = false) →
      updateDepositStatus db wanted status md now = (false, db)) ∧
    (∀ (db : DB) (wanted : String) (md : FieldMap) (now : Nat)
        (pre : List Dep) (d : Dep) (suf : List Dep),
      db.deposits = pre ++ d :: suf →
      (∀ y ∈ pre, matchesId wanted y.id y.reff_id = false) →
      matchesId wanted d.id d.reff_id = true →
      d.status ≠ "success" →
      (updateDepositStatus db wanted "success" md now).1 = true ∧
      (updateDepositStatus db wanted "success" md now).2.system =
        ⟨db.system.successful_transfers, db.system.successful_deposits + 1,
          db.system.total_volume + d.nominal⟩) ∧
    (∀ (db : DB) (wanted : String) (md : FieldMap) (now : Nat)
        (pre : List Dep) (d : Dep) (suf : List Dep),
      db.deposits = pre ++ d :: suf →
      (∀ y ∈ pre, matchesId wanted y.id y.reff_id = false) →
      matchesId wanted d.id d.reff_id = true →
      d.status = "success" →
      (updateDepositStatus db wanted "success" md now).1 = true ∧
      (updateDepositStatus db wanted "success" md now).2.system =
        db.system) := by
  refine ⟨?_, ?_, ?_, ?_, ?_, ?_⟩
  · intro db wanted status md now h
    unfold updateTransactionStatus
    rw [updateFirst_of_not_found _ _ _ h]
  · intro db wanted md now pre t suf hdb hpre ht hst
    unfold updateTransactionStatus
    rw [hdb, updateFirst_of_found _ _ _ _ _ hpre ht]
    simp [hst]
  · intro db wanted md now pre t suf hdb hpre ht hst
    unfold updateTransactionStatus
    rw [hdb, updateFirst_of_found _ _ _ _ _ hpre ht]
    simp [hst]
  · intro db wanted status md now h
    unfold updateDepositStatus
    rw [updateFirst_of_not_found _ _ _ h]
  · intro db wanted md now pre d suf hdb hpre hd hst
    unfold updateDepositStatus
    rw [hdb, updateFirst_of_found _ _ _ _ _ hpre hd]
    simp [hst]
  · intro db wanted md now pre d suf hdb hpre hd hst
    unfold updateDepositStatus
    rw [hdb, updateFirst_of_found _ _ _ _ _ hpre hd]
    simp [hst]

/-- C5 witness: on the sample journal, updating the pending sample
transaction (looked up by its reference id) to `success` succeeds, bumps
`successful_transfers` from 0 to 1 and `total_volume` by the record's 5000;
an unknown id is a failure no-op. -/
theorem C5_updateStatus_counters_witness :
    ((updateTransactionStatus sampleDB "TRF-100" "success" [] 9).1 = true ∧
      (updateTransactionStatus sampleDB "TRF-100" "success" [] 9).2.system =
        ⟨1, 0, 5000⟩) ∧
    updateTransactionStatus sampleDB "NOPE" "success" [] 9 =
      (false, sampleDB) := by
  constructor
  · have h := C5_updateStatus_counters.2.1 sampleDB "TRF-100" [] 9 [] sampleTx
      [] rfl (by simp) (by decide) (by decide)
    simpa [sampleDB, sampleTx] using h
  · exact C5_updateStatus_counters.1 sampleDB "NOPE" "success" [] 9
      (by decide)

/-! ## C6 — append is NOT an idempotent upsert -/

/-- C6 counterexample: `addTransaction` twice with the same explicit id
`X1` and status `success` creates a second record with the same id and
double-counts both the success counter and the volume — refuting the claim
that append is an idempotent upsert keyed by id or reference id. -/
theorem C6_append_counterexample :
    ((addTransaction (addTransaction emptyDB sampleTxInput "g1" 11).2
        sampleTxInput "g2" 12).2.transactions.map Tx.id = ["X1", "X1"] ∧
      (addTransaction (addTransaction emptyDB sampleTxInput "g1" 11).2
        sampleTxInput "g2" 12).2.system = ⟨2, 0, 10000⟩) ∧
    ((addDeposit (addDeposit emptyDB sampleDepInput "g1" 11).2
        sampleDepInput "g2" 12).2.deposits.map Dep.id = ["D1", "D1"] ∧
      (addDeposit (addDeposit emptyDB sampleDepInput "g1" 11).2
        sampleDepInput "g2" 12).2.system = ⟨0, 2, 4000⟩) := by
  decide

/-- C6 amended: `addTransaction` / `addDeposit` push a new record
unconditionally (no key check whatsoever), so calling either twice with the
same explicit id appends two records with that id, and every append whose
status is `success` bumps the success counter and the volume — a second
identical success-append double-counts. -/
theorem C6_append_not_idempotent
    (db : DB) (inp : TxInput) (dinp : DepInput) (g1 g2 : String)
    (n1 n2 : Nat) (i j : String)
    (hid : inp.id = some i) (hst : inp.status = some "success")
    (hdid : dinp.id = some j) (hdst : dinp.status = some "success") :
    (addTransaction (addTransaction db inp g1 n1).2 inp g2 n2).2.transactions
        = db.transactions ++ [mkTx inp g1 n1, mkTx inp g2 n2] ∧
    (mkTx inp g1 n1).id = i ∧ (mkTx inp g2 n2).id = i ∧
    (addTransaction (addTransaction db inp g1 n1).2 inp g2 n2).2.system.successful_transfers
        = db.system.successful_transfers + 2 ∧
    (addTransaction (addTransaction db inp g1 n1).2 inp g2 n2).2.system.total_volume
        = db.system.total_volume + 2 * inp.nominal ∧
    (addDeposit (addDeposit db dinp g1 n1).2 dinp g2 n2).2.deposits
        = db.deposits ++ [mkDep dinp g1 n1, mkDep dinp g2 n2] ∧
    (mkDep dinp g1 n1).id = j ∧ (mkDep dinp g2 n2).id = j ∧
    (addDeposit (addDeposit db dinp g1 n1).2 dinp g2 n2).2.system.successful_deposits
        = db.system.successful_deposits + 2 ∧
    (addDeposit (addDeposit db dinp g1 n1).2 dinp g2 n2).2.system.total_volume
        = db.system.total_volume + 2 * dinp.nominal := by
  have hs1 : ∀ g n, (mkTx inp g n).status = "success" := by
    intro g n; simp [mkTx, hst, jsOrStr]
  have hs2 : ∀ g n, (mkDep dinp g n).status = "success" := by
    intro g n; simp [mkDep, hdst, jsOrStr]
  have hn1 : ∀ g n, (mkTx inp g n).nominal = inp.nominal := by
    intro g n; rfl
  have hn2 : ∀ g n, (mkDep dinp g n).nominal = dinp.nominal := by
    intro g n; rfl
  refine ⟨?_, by simp [mkTx, hid], by simp [mkTx, hid], ?_, ?_, ?_,
    by simp [mkDep, hdid], by simp [mkDep, hdid], ?_, ?_⟩ <;>
    simp [addTransaction, addDeposit, hs1, hs2, hn1, hn2] <;> ring

/-- C6 amended witness: the double-append on the empty journal from the
counterexample instantiates the amended statement. -/
theorem C6_append_not_idempotent_witness :
    (addTransaction (addTransaction emptyDB sampleTxInput "g1" 11).2
        sampleTxInput "g2" 12).2.transactions
      = emptyDB.transactions ++
        [mkTx sampleTxInput "g1" 11, mkTx sampleTxInput "g2" 12] ∧
    (mkTx sampleTxInput "g1" 11).id = "X1" := by
  have h := C6_append_not_idempotent emptyDB sampleTxInput sampleDepInput
    "g1" "g2" 11 12 "X1" "D1" rfl rfl rfl rfl
  exact ⟨h.1, h.2.1⟩

/-! ## C10 — frame property of updateTransactionStatus -/

/-- C10: a successful `updateTransactionStatus` call splits the journal
around the first record matching the id-or-reference-id; only that record is
replaced, and its replacement changes exactly `status`, `updated_at` and the
metadata merge — `id`, `reff_id`, `user_id`, `bank_code`, `account_number`,
`account_name`, `nominal`, `fee`, `total` and `created_at` are preserved,
every other transaction (the prefix and suffix) is untouched, and the
deposit collection is untouched. -/
theorem C10_updateTransactionStatus_frame
    (db : DB) (wanted status : String) (md : FieldMap) (now : Nat)
    (h : (updateTransactionStatus db wanted status md now).1 = true) :
    ∃ pre t suf,
      db.transactions = pre ++ t :: suf ∧
      (∀ y ∈ pre, matchesId wanted y.id y.reff_id = false) ∧
      matchesId wanted t.id t.reff_id = true ∧
      (updateTransactionStatus db wanted status md now).2.transactions =
        pre ++ applyTxUpdate status md now t :: suf ∧
      (updateTransactionStatus db wanted status md now).2.deposits =
        db.deposits ∧
      applyTxUpdate status md now t =
        { t with
          status := status
          updated_at := now
          metadata := jsMerge t.metadata md } := by
  unfold updateTransactionStatus at h ⊢
  rcases hu : updateFirst (fun t => matchesId wanted t.id t.reff_id)
      (applyTxUpdate status md now) db.transactions with _ | ⟨t, txs⟩
  · rw [hu] at h
    simp at h
  · rw [hu] at h ⊢
    obtain ⟨pre, suf, hdb, hpre, ht, hl'⟩ :=
      updateFirst_some_decomp _ _ _ _ _ hu
    exact ⟨pre, t, suf, hdb, hpre, ht, by simp [hl'], by simp, rfl⟩

/-- C10 witness: the frame property instantiated on the sample journal. -/
theorem C10_updateTransactionStatus_frame_witness :
    (updateTransactionStatus sampleDB "X1" "failed" [("e", .str "t")] 9).1
        = true ∧
    ∃ pre t suf,
      sampleDB.transactions = pre ++ t :: suf ∧
      (∀ y ∈ pre, matchesId "X1" y.id y.reff_id = false) ∧
      matchesId "X1" t.id t.reff_id = true ∧
      (updateTransactionStatus sampleDB "X1" "failed"
          [("e", .str "t")] 9).2.transactions =
        pre ++ applyTxUpdate "failed" [("e", .str "t")] 9 t :: suf ∧
      (updateTransactionStatus sampleDB "X1" "failed"
          [("e", .str "t")] 9).2.deposits = sampleDB.deposits ∧
      applyTxUpdate "failed" [("e", .str "t")] 9 t =
        { t with
          status := "failed"
          updated_at := 9
          metadata := jsMerge t.metadata [("e", .str "t")] } :=
  ⟨by decide,
    C10_updateTransactionStatus_frame sampleDB "X1" "failed"
      [("e", .str "t")] 9 (by decide)⟩

/-! ## C7 — save-queue protocol -/

theorem saveStep_inv (s : SaveState) (e : SaveEvent)
    (h1 : s.lock = !s.activeWrites.isEmpty)
    (h2 : s.activeWrites.length ≤ 1) :
    (saveStep s e).lock = !(saveStep s e).activeWrites.isEmpty ∧
      (saveStep s e).activeWrites.length ≤ 1 := by
  rcases s with ⟨lk, q, aw, rel⟩
  rcases aw with _ | ⟨a, _ | ⟨b, rest⟩⟩
  · simp at h1
    subst h1
    cases e with
    | call c => simp [saveStep, saveCall]
    | finish c => simp [saveStep, saveFinish]
  · simp at h1
    subst h1
    cases e with
    | call c => simp [saveStep, saveCall]
    | finish c =>
        simp only [saveStep, saveFinish]
        by_cases hc : [a].contains c
        · have hca : c = a := by simpa [List.contains] using hc
          subst hca
          simp only [hc, if_true]
          rcases q with _ | ⟨qh, qt⟩ <;> simp [List.erase]
        · have hca : ¬(c = a) := by simpa [List.contains] using hc
          simp [hca]
  · simp at h2

theorem foldl_save_inv :
    ∀ (evs : List SaveEvent) (s : SaveState),
      s.lock = !s.activeWrites.isEmpty → s.activeWrites.length ≤ 1 →
      ((evs.foldl saveStep s).lock =
          !(evs.foldl saveStep s).activeWrites.isEmpty) ∧
        (evs.foldl saveStep s).activeWrites.length ≤ 1 := by
  intro evs
  induction evs with
  | nil => intro s h1 h2; exact ⟨h1, h2⟩
  | cons e rest ih =>
      intro s h1 h2
      have h := saveStep_inv s e h1 h2
      exact ih (saveStep s e) h.1 h.2

/-- C7 counterexample: with callers 1 and 2 queued while caller 0's write is
in flight, completing that write releases only caller 1 — caller 2 stays
queued even though no write is in flight any more, refuting "every queued
caller is released once the in-flight write completes". -/
theorem C7_saveQueue_counterexample :
    (runSave [.call 0, .call 1, .call 2]).saveQueue = [1, 2] ∧
    (runSave [.call 0, .call 1, .call 2]).activeWrites = [0] ∧
    (runSave [.call 0, .call 1, .call 2, .finish 0]).activeWrites = [] ∧
    (runSave [.call 0, .call 1, .call 2, .finish 0]).released = [0, 1] ∧
    ¬(2 ∈ (runSave [.call 0, .call 1, .call 2, .finish 0]).released) := by
  decide

/-- C7 amended: (1) in every reachable protocol state at most one write is
in flight (no overlapping writes ever); (2) a save request arriving while
the lock is held is appended FIFO to the queue and starts no write; (3) when
the in-flight write completes, the writer's own promise resolves and exactly
one queued caller — the FIFO head, if the queue is non-empty — is released
(the remaining queued callers stay queued and the released one starts no
write of its own). -/
theorem C7_saveQueue_serializes :
    (∀ evs : List SaveEvent, (runSave evs).activeWrites.length ≤ 1) ∧
    (∀ (s : SaveState) (c : Nat), s.lock = true →
      saveCall s c = { s with saveQueue := s.saveQueue ++ [c] }) ∧
    (∀ (s : SaveState) (c : Nat), s.activeWrites = [c] →
      (saveFinish s c).lock = false ∧
      (saveFinish s c).activeWrites = [] ∧
      (saveFinish s c).released = s.released ++ c :: s.saveQueue.take 1 ∧
      (saveFinish s c).saveQueue = s.saveQueue.drop 1) := by
  refine ⟨?_, ?_, ?_⟩
  · intro evs
    exact (foldl_save_inv evs initialSaveState rfl
      (by simp [initialSaveState])).2
  · intro s c h
    simp [saveCall, h]
  · intro s c h
    have hc : s.activeWrites.contains c = true := by simp [h, List.contains]
    simp only [saveFinish, hc, if_true, h]
    rcases hq : s.saveQueue with _ | ⟨qh, qt⟩ <;>
      simp [List.erase, hq]

/-- C7 amended witness: the protocol equations instantiated on concrete
states — a call under the lock queues FIFO, and finishing the write with a
two-element queue releases the writer plus exactly the queue head. -/
theorem C7_saveQueue_serializes_witness :
    (runSave [.call 4, .call 5]).activeWrites.length ≤ 1 ∧
    saveCall ⟨true, [5], [9], []⟩ 7 = ⟨true, [5, 7], [9], []⟩ ∧
    (saveFinish ⟨true, [5, 7], [9], []⟩ 9).lock = false ∧
    (saveFinish ⟨true, [5, 7], [9], []⟩ 9).released = [9, 5] ∧
    (saveFinish ⟨true, [5, 7], [9], []⟩ 9).saveQueue = [7] := by
  refine ⟨C7_saveQueue_serializes.1 [.call 4, .call 5], ?_, ?_, ?_, ?_⟩
  · exact C7_saveQueue_serializes.2.1 ⟨true, [5], [9], []⟩ 7 rfl
  · exact (C7_saveQueue_serializes.2.2 ⟨true, [5, 7], [9], []⟩ 9 rfl).1
  · have h := (C7_saveQueue_serializes.2.2 ⟨true, [5, 7], [9], []⟩ 9 rfl).2.2.1
    simpa using h
  · have h := (C7_saveQueue_serializes.2.2 ⟨true, [5, 7], [9], []⟩ 9 rfl).2.2.2
    simpa using h

/-! ## C1 — retry policy of the API client -/

theorem requestWithRetryAux_eq (oracle : Nat → AttemptResult β)
    (remaining retryCount : Nat) :
    requestWithRetryAux oracle remaining retryCount =
      match oracle retryCount with
      | .ok body => ⟨retryCount + 1, [], .ok body⟩
      | .fail f =>
          if shouldRetry f then
            match remaining with
            | 0 => ⟨retryCount + 1, [], .error f⟩
            | r + 1 =>
                let t := requestWithRetryAux oracle r (retryCount + 1)
                ⟨t.attempts, backoffDelay (retryCount + 1) :: t.delays,
                  t.outcome⟩
          else ⟨retryCount + 1, [], .error f⟩ := by
  rw [requestWithRetryAux]

theorem retryAux_ok (oracle : Nat → AttemptResult β) (k : Nat)
    (b : Option β) :
    ∀ (d j : Nat), k - j = d → j ≤ k →
      (∀ i, j ≤ i → i < k → ∃ f, oracle i = .fail f ∧ shouldRetry f = true) →
      oracle k = .ok b →
      ∀ rem, k - j ≤ rem →
        requestWithRetryAux oracle rem j =
          ⟨k + 1, (List.range' (j + 1) (k - j)).map backoffDelay, .ok b⟩ := by
  intro d
  induction d with
  | zero =>
      intro j hd hj _ hok rem _
      have hjk : j = k := by omega
      subst hjk
      rw [requestWithRetryAux_eq, hok]
      simp [hd]
  | succ d ih =>
      intro j hd hj hfail hok rem hrem
      have hjk : j < k := by omega
      obtain ⟨f, hf, hr⟩ := hfail j le_rfl hjk
      rcases rem with _ | r
      · omega
      · rw [requestWithRetryAux_eq, hf]
        dsimp only
        rw [if_pos hr]
        rw [ih (j + 1) (by omega) (by omega)
          (fun i h1 h2 => hfail i (by omega) h2) hok r (by omega)]
        have hkj : k - j = d + 1 := hd
        rw [hkj, List.range'_succ]
        have : k - (j + 1) = d := by omega
        simp [this]

theorem retryAux_fail (oracle : Nat → AttemptResult β) (maxR : Nat)
    (flast : RequestFailure) :
    ∀ (d j : Nat), maxR - j = d → j ≤ maxR →
      (∀ i, j ≤ i → i ≤ maxR →
        ∃ f, oracle i = .fail f ∧ shouldRetry f = true) →
      oracle maxR = .fail flast →
      requestWithRetryAux oracle (maxR - j) j =
        ⟨maxR + 1, (List.range' (j + 1) (maxR - j)).map backoffDelay,
          .error flast⟩ := by
  intro d
  induction d with
  | zero =>
      intro j hd hj hfail hlast
      have hjm : j = maxR := by omega
      subst hjm
      obtain ⟨f, hf, hr⟩ := hfail j le_rfl le_rfl
      have hff : f = flast := by
        rw [hlast] at hf
        exact (AttemptResult.fail.inj hf).symm
      subst hff
      rw [hd, requestWithRetryAux_eq, hf]
      dsimp only
      rw [if_pos hr]
      simp [hd]
  | succ d ih =>
      intro j hd hj hfail hlast
      have hjm : j < maxR := by omega
      obtain ⟨f, hf, hr⟩ := hfail j le_rfl (by omega)
      rw [hd, requestWithRetryAux_eq, hf]
      dsimp only
      rw [if_pos hr]
      have hrec : maxR - (j + 1) = d := by omega
      rw [← hrec, ih (j + 1) hrec (by omega)
        (fun i h1 h2 => hfail i (by omega) h2) hlast]
      dsimp only
      rw [List.range'_succ]
      simp

/-- C1: retry policy of the API client.  (1) If the first `k` underlying
attempts fail retryably (`shouldRetry`: connection aborted/reset/timeout,
HTTP 429 or HTTP status at least 500) with `k ≤ maxRetries` and attempt `k`
returns a 2xx response, the call performs exactly `k + 1` underlying
attempts and waits `backoffDelay i = min (1000 * 2^i) 10000` milliseconds
before retry `i = 1, ..., k`.  (2) If every permitted attempt fails
retryably, the loop performs exactly `maxRetries + 1` underlying attempts
and surfaces the last error.  (3) With two 503s followed by a 2xx
status-true body, `createTransfer` returns the normalized success and the
wire saw exactly 3 attempts.  (4) With 503 on every attempt and
`maxRetries = 3`, `createTransfer` returns the normalized failure
`{success: false, data: null, message: "Server error, coba lagi nanti"}`
(never an exception) after exactly 4 underlying attempts. -/
theorem C1_retry_policy :
    (∀ (β : Type) (oracle : Nat → AttemptResult β) (maxRetries k : Nat)
        (b : Option β),
      k ≤ maxRetries →
      (∀ i, i < k → ∃ f, oracle i = .fail f ∧ shouldRetry f = true) →
      oracle k = .ok b →
      requestWithRetry oracle maxRetries 0 =
        ⟨k + 1, (List.range' 1 k).map backoffDelay, .ok b⟩) ∧
    (∀ (β : Type) (oracle : Nat → AttemptResult β) (maxRetries : Nat)
        (flast : RequestFailure),
      (∀ i, i ≤ maxRetries →
        ∃ f, oracle i = .fail f ∧ shouldRetry f = true) →
      oracle maxRetries = .fail flast →
      requestWithRetry oracle maxRetries 0 =
        ⟨maxRetries + 1, (List.range' 1 maxRetries).map backoffDelay,
          .error flast⟩) ∧
    (∀ (π : Type) (b : ApiBody π) (td : TransferFields),
      b.status = true → ¬(td.kode_bank = "") → ¬(td.nomor_akun = "") →
      ¬(td.nominal = 0) →
      createTransfer
          (fun i => if i < 2 then .fail (.httpError 503 none)
            else .ok (some b)) 3 td =
        ⟨true, b.data, jsOrStr b.message "Transfer created successfully"⟩ ∧
      (requestWithRetry
          (fun i => if i < 2 then
              AttemptResult.fail (β := ApiBody π) (.httpError 503 none)
            else .ok (some b)) 3 0).attempts = 3) ∧
    (createTransfer (π := Unit) (fun _ => .fail (.httpError 503 none)) 3
        ⟨none, "bca", "123", none, 10000, none, none, none⟩ =
      ⟨false, none, "Server error, coba lagi nanti"⟩ ∧
    (requestWithRetry (β := ApiBody Unit)
        (fun _ => .fail (.httpError 503 none)) 3 0).attempts = 4) := by
  have gen1 : ∀ (β : Type) (oracle : Nat → AttemptResult β)
      (maxRetries k : Nat) (b : Option β),
      k ≤ maxRetries →
      (∀ i, i < k → ∃ f, oracle i = .fail f ∧ shouldRetry f = true) →
      oracle k = .ok b →
      requestWithRetry oracle maxRetries 0 =
        ⟨k + 1, (List.range' 1 k).map backoffDelay, .ok b⟩ := by
    intro β oracle maxRetries k b hk hfail hok
    unfold requestWithRetry
    have h := retryAux_ok oracle k b k 0 (by omega) (by omega)
      (fun i _ h2 => hfail i h2) hok (maxRetries - 0) (by omega)
    simpa using h
  refine ⟨gen1, ?_, ?_, ?_⟩
  · intro β oracle maxRetries flast hfail hlast
    unfold requestWithRetry
    have h := retryAux_fail oracle maxRetries flast maxRetries 0
      (by omega) (by omega) (fun i _ h2 => hfail i h2) hlast
    simpa using h
  · intro π b td hb h1 h2 h3
    have htrace := gen1 (ApiBody π)
      (fun i => if i < 2 then .fail (.httpError 503 none) else .ok (some b))
      3 2 (some b) (by omega)
      (fun i hi => ⟨.httpError 503 none, by simp [hi], by decide⟩)
      (by simp)
    constructor
    · unfold createTransfer
      rw [if_neg (by tauto)]
      rw [htrace]
      simp [hb]
    · rw [htrace]
  · exact ⟨rfl, rfl⟩

/-- C1 witness: both general clauses and the body-generic scenario
instantiated concretely — two 503s then a 2xx makes exactly 3 attempts with
backoff waits 2000 and 4000 ms; four 503s under `maxRetries = 3` make
exactly 4 attempts; `createTransfer` returns the normalized results. -/
theorem C1_retry_policy_witness :
    requestWithRetry
        (fun i => if i < 2 then
            AttemptResult.fail (β := ApiBody Unit) (.httpError 503 none)
          else .ok (some ⟨true, some (), some "ok"⟩)) 3 0 =
      ⟨3, [2000, 4000], .ok (some ⟨true, some (), some "ok"⟩)⟩ ∧
    requestWithRetry (β := ApiBody Unit)
        (fun _ => .fail (.httpError 503 none)) 3 0 =
      ⟨4, [2000, 4000, 8000], .error (.httpError 503 none)⟩ ∧
    createTransfer
        (fun i => if i < 2 then .fail (.httpError 503 none)
          else .ok (some (⟨true, some (), some "ok"⟩ : ApiBody Unit))) 3
        ⟨none, "bca", "123", none, 10000, none, none, none⟩ =
      ⟨true, some (), "ok"⟩ := by
  refine ⟨?_, ?_, ?_⟩
  · have h := C1_retry_policy.1 (ApiBody Unit)
      (fun i => if i < 2 then .fail (.httpError 503 none)
        else .ok (some ⟨true, some (), some "ok"⟩)) 3 2
      (some ⟨true, some (), some "ok"⟩) (by omega)
      (fun i hi => ⟨.httpError 503 none, by simp [hi], by decide⟩) (by simp)
    rw [h]
    norm_num [backoffDelay, List.range']
  · have h := C1_retry_policy.2.1 (ApiBody Unit)
      (fun _ => .fail (.httpError 503 none)) 3 (.httpError 503 none)
      (fun i _ => ⟨.httpError 503 none, rfl, by decide⟩) rfl
    rw [h]
    norm_num [backoffDelay, List.range']
  · have h := (C1_retry_policy.2.2.1 Unit ⟨true, some (), some "ok"⟩
      ⟨none, "bca", "123", none, 10000, none, none, none⟩ rfl
      (by decide) (by decide) (by decide)).1
    simpa [jsOrStr] using h

/-! ## C2 — success flag derivation -/

/-- C2 counterexample: a 2xx response whose body carries `status: false`
makes `checkTransferStatus` return `success: true` — the provider's status
flag is ignored by that operation, refuting the claim that all four
operations derive `success` from the provider's flag. -/
theorem C2_success_flag_counterexample :
    checkTransferStatus (π := Unit)
        (fun _ => .ok (some ⟨false, none, some "gagal"⟩)) 3 "TRX1" =
      ⟨true, none, "gagal"⟩ ∧
    (⟨false, none, some "gagal"⟩ : ApiBody Unit).status = false :=
  ⟨rfl, rfl⟩

/-- C2 amended: for `getBankList`, `checkAccount` and `createTransfer` the
normalized `success` equals the provider's own boolean status flag (false
when the body is absent); `checkTransferStatus` instead returns
`success: true` exactly when the 2xx response carries any body at all,
ignoring the status flag. -/
theorem C2_success_flag (π : Type) (maxRetries : Nat)
    (bo : Option (ApiBody π)) (blo : Option (ApiBody (List π)))
    (bankCode accountNumber transactionId : String)
    (td : TransferFields) (h1 : ¬(td.kode_bank = ""))
    (h2 : ¬(td.nomor_akun = "")) (h3 : ¬(td.nominal = 0)) :
    (getBankList (fun _ => .ok blo) maxRetries).success =
      (blo.map ApiBody.status).getD false ∧
    (checkAccount (fun _ => .ok bo) maxRetries bankCode
        accountNumber).success = (bo.map ApiBody.status).getD false ∧
    (createTransfer (fun _ => .ok bo) maxRetries td).success =
      (bo.map ApiBody.status).getD false ∧
    (checkTransferStatus (fun _ => .ok bo) maxRetries
        transactionId).success = bo.isSome := by
  have htr : requestWithRetry (β := ApiBody π) (fun _ => .ok bo)
      maxRetries 0 = ⟨1, [], .ok bo⟩ := by
    unfold requestWithRetry
    rw [requestWithRetryAux_eq]
  have htrl : requestWithRetry (β := ApiBody (List π)) (fun _ => .ok blo)
      maxRetries 0 = ⟨1, [], .ok blo⟩ := by
    unfold requestWithRetry
    rw [requestWithRetryAux_eq]
  refine ⟨?_, ?_, ?_, ?_⟩
  · unfold getBankList
    rw [htrl]
    rcases blo with _ | b
    · simp
    · rcases hb : b.status <;> simp [hb]
  · unfold checkAccount
    rw [htr]
    rcases bo with _ | b
    · simp
    · rcases hb : b.status <;> simp [hb]
  · unfold createTransfer
    rw [if_neg (by tauto), htr]
    rcases bo with _ | b
    · simp
    · rcases hb : b.status <;> simp [hb]
  · unfold checkTransferStatus
    rw [htr]
    rcases bo with _ | b <;> simp

/-- C2 amended witness: on a body with `status: false`, the first three
operations report failure while `checkTransferStatus` reports success. -/
theorem C2_success_flag_witness :
    (getBankList (π := Unit) (fun _ => .ok (some ⟨false, none, none⟩))
        3).success = false ∧
    (checkTransferStatus (π := Unit)
        (fun _ => .ok (some ⟨false, none, none⟩)) 3 "T1").success = true := by
  have h := C2_success_flag Unit 3 (some ⟨false, none, none⟩)
    (some ⟨false, none, none⟩) "bca" "123"
    "T1" ⟨none, "bca", "123", none, 10000, none, none, none⟩
    (by decide) (by decide) (by decide)
  exact ⟨by simpa using h.1, by simpa using h.2.2.2⟩

/-! ## Character, decimal-rendering and trim lemmas -/

theorem charToNat_ofNat (n : Nat) (h : n < 55296) :
    (Char.ofNat n).toNat = n := by
  unfold Char.ofNat
  rw [dif_pos (Or.inl h)]
  rfl

theorem charOfNat_isDigit (n : Nat) (h : n < 10) :
    (Char.ofNat (48 + n)).isDigit = true := by
  interval_cases n <;> decide

theorem natToDecAux_all_digits :
    ∀ (fuel n : Nat) (acc : List Char), acc.all Char.isDigit = true →
      (natToDecAux fuel n acc).all Char.isDigit = true := by
  intro fuel
  induction fuel with
  | zero => intro n acc h; exact h
  | succ f ih =>
      intro n acc h
      simp only [natToDecAux]
      by_cases hn : n < 10
      · rw [if_pos hn]
        simp [charOfNat_isDigit n hn, h]
      · rw [if_neg hn]
        exact ih _ _ (by simp [h, charOfNat_isDigit (n % 10) (by omega)])

theorem natToDec_all_digits (n : Nat) :
    (natToDec n).all Char.isDigit = true :=
  natToDecAux_all_digits (n + 1) n [] rfl

theorem natToDecAux_value :
    ∀ (fuel n : Nat) (acc : List Char), n < 10 ^ fuel →
      digitsToNat (natToDecAux fuel n acc) =
        acc.foldl (fun a c => 10 * a + (c.toNat - 48)) n := by
  intro fuel
  induction fuel with
  | zero =>
      intro n acc h
      have hn : n = 0 := by simpa using h
      subst hn
      rfl
  | succ f ih =>
      intro n acc h
      simp only [natToDecAux]
      by_cases hn : n < 10
      · rw [if_pos hn]
        show (Char.ofNat (48 + n) :: acc).foldl _ 0 = _
        simp only [List.foldl_cons]
        rw [charToNat_ofNat (48 + n) (by omega)]
        have he : 10 * 0 + (48 + n - 48) = n := by omega
        rw [he]
      · rw [if_neg hn]
        have hd : n / 10 < 10 ^ f := by
          rw [Nat.div_lt_iff_lt_mul (by omega)]
          calc n < 10 ^ (f + 1) := h
            _ = 10 ^ f * 10 := by ring
        rw [ih (n / 10) _ hd]
        simp only [List.foldl_cons]
        rw [charToNat_ofNat (48 + n % 10) (by omega)]
        have he : 10 * (n / 10) + (48 + n % 10 - 48) = n := by omega
        rw [he]

theorem natToDec_value (n : Nat) : digitsToNat (natToDec n) = n := by
  have hlt : n < 10 ^ (n + 1) :=
    calc n < 10 ^ n := Nat.lt_pow_self (by omega) n
      _ ≤ 10 ^ (n + 1) := Nat.pow_le_pow_right (by omega) (by omega)
  simpa using natToDecAux_value (n + 1) n [] hlt

theorem natToDecAux_ne_nil :
    ∀ (fuel n : Nat) (acc : List Char), fuel ≠ 0 ∨ acc ≠ [] →
      natToDecAux fuel n acc ≠ [] := by
  intro fuel
  induction fuel with
  | zero =>
      intro n acc h
      rcases h with h | h
      · omega
      · exact h
  | succ f ih =>
      intro n acc _
      simp only [natToDecAux]
      by_cases hn : n < 10
      · rw [if_pos hn]; simp
      · rw [if_neg hn]
        exact ih _ _ (Or.inr (by simp))

theorem natToDec_ne_nil (n : Nat) : natToDec n ≠ [] :=
  natToDecAux_ne_nil (n + 1) n [] (Or.inl (by omega))

theorem head_dropWhile_not (p : Char → Bool) :
    ∀ (l : List Char) (c : Char),
      (l.dropWhile p).head? = some c → p c = false := by
  intro l
  induction l with
  | nil => intro c h; simp [List.dropWhile] at h
  | cons a as ih =>
      intro c h
      rw [List.dropWhile_cons] at h
      by_cases hp : p a = true
      · rw [if_pos hp] at h
        exact ih c h
      · rw [if_neg hp] at h
        have : a = c := by simpa using h
        subst this
        simpa using hp

theorem dropWhile_isSuffix (p : Char → Bool) :
    ∀ l : List Char, l.dropWhile p <:+ l := by
  intro l
  induction l with
  | nil => simp
  | cons a as ih =>
      rw [List.dropWhile_cons]
      by_cases hp : p a = true
      · rw [if_pos hp]
        exact ih.trans (List.suffix_cons a as)
      · rw [if_neg hp]

theorem jsTrimList_head (cs : List Char) (c : Char)
    (h : (jsTrimList cs).head? = some c) : isJsWhitespace c = false := by
  unfold jsTrimList at h
  have hpre : ((cs.dropWhile isJsWhitespace).reverse.dropWhile
      isJsWhitespace).reverse <+: cs.dropWhile isJsWhitespace := by
    have h0 := List.reverse_prefix.mpr
      (dropWhile_isSuffix isJsWhitespace (cs.dropWhile isJsWhitespace).reverse)
    rwa [List.reverse_reverse] at h0
  obtain ⟨t, ht⟩ := hpre
  have hh : (cs.dropWhile isJsWhitespace).head? = some c := by
    rw [← ht]
    rcases hb : ((cs.dropWhile isJsWhitespace).reverse.dropWhile
        isJsWhitespace).reverse with _ | ⟨b, bs⟩
    · rw [hb] at h; simp at h
    · rw [hb] at h
      simp at h
      subst h
      simp
  exact head_dropWhile_not isJsWhitespace _ c hh

theorem jsTrimList_getLast (cs : List Char) (c : Char)
    (h : (jsTrimList cs).getLast? = some c) : isJsWhitespace c = false := by
  unfold jsTrimList at h
  rw [List.getLast?_reverse] at h
  exact head_dropWhile_not isJsWhitespace _ c h

theorem mem_jsTrimList (cs : List Char) (c : Char)
    (h : c ∈ jsTrimList cs) : c ∈ cs := by
  unfold jsTrimList at h
  rw [List.mem_reverse] at h
  have h2 := (List.dropWhile_sublist
    (l := (cs.dropWhile isJsWhitespace).reverse)
    (p := isJsWhitespace)).mem h
  rw [List.mem_reverse] at h2
  exact (List.dropWhile_sublist (l := cs) (p := isJsWhitespace)).mem h2

theorem jsLowerChar_not_upper (c : Char) :
    ¬(65 ≤ (jsLowerChar c).toNat ∧ (jsLowerChar c).toNat ≤ 90) := by
  unfold jsLowerChar
  by_cases h : 65 ≤ c.toNat ∧ c.toNat ≤ 90
  · rw [if_pos h]
    rw [charToNat_ofNat (c.toNat + 32) (by omega)]
    omega
  · rw [if_neg h]
    exact h

/-! ## Wizard run lemmas -/

theorem runTransferWizard_spec (t1 t2 t3 t4 : String) (now a : Nat)
    (h4 : parseAmount t4 = some a) (ha : 1000 ≤ a) :
    runTransferWizard t1 t2 t3 t4 now =
      (none, .confirm "transfer" (transferMap t1 t2 t3 a now)
        ("confirm_transfer:" ++
          jsonStringify (transferMap t1 t2 t3 a now))) := by
  simp only [runTransferWizard, stepThen, handleCreateTransferWizard,
    startState]
  rw [h4]
  simp only [jsSet, transferMap]
  rw [if_neg (Nat.not_lt.mpr ha)]
  rfl

theorem runDepositWizard_spec (t : String) (now minD maxD a : Nat)
    (hp : parseAmount t = some a) (h1 : minD ≤ a) (h2 : a ≤ maxD) :
    runDepositWizard t now minD maxD =
      (none, .confirm "deposit" (depositMap a now)
        ("confirm_deposit:" ++ jsonStringify (depositMap a now))) := by
  simp only [runDepositWizard, handleCreateDepositWizard, startState]
  rw [hp]
  simp only [jsSet, depositMap]
  rw [if_neg (Nat.not_lt.mpr h1), if_neg (Nat.not_lt.mpr h2)]
  rfl

theorem runCheckAccountWizard_spec (t1 t2 : String) :
    runCheckAccountWizard t1 t2 =
      (none, .apiCheck [("bank_code", .str (jsLowerTrim t1)),
        ("account_number", .str (jsTrim t2))]) := rfl

/-! ## C3 — amount validation -/

/-- C3 counterexample: at the transfer wizard's amount step an amount far
above the configured deposit maximum (default 10000000) — indeed above any
bound — is accepted with a confirmation instead of the claimed
`ValidationFailed`: the transfer wizard checks no upper bound at all. -/
theorem C3_amount_validation_counterexample :
    10000000 < 999999999999 ∧
    runTransferWizard "ovo" "1" "A" "999999999999" 0 =
      (none, .confirm "transfer"
        [("kode_bank", .str "ovo"), ("nomor_akun", .str "1"),
         ("nama_pemilik", .str "A"), ("nominal", .num 999999999999),
         ("ref_id", .str "TRF-0")]
        ("confirm_transfer:" ++ jsonStringify
          [("kode_bank", .str "ovo"), ("nomor_akun", .str "1"),
           ("nama_pemilik", .str "A"), ("nominal", .num 999999999999),
           ("ref_id", .str "TRF-0")])) := by
  constructor
  · omega
  · decide

/-- C3 amended: the amount is obtained by stripping all non-digit
characters and applying `parseInt`.  In the create_deposit wizard a failed
parse, a value below the configured minimum, or a value above the configured
maximum each yield `ValidationFailed` with the session deleted, and an
in-bounds value is accepted.  In the create_transfer wizard only a failed
parse or a value below the fixed minimum 1000 yields `ValidationFailed`
with the session deleted; any parsed value of at least 1000 is accepted —
no configured bounds are consulted and no maximum exists. -/
theorem C3_amount_validation :
    (∀ (w : String) (d : FieldMap) (text : String) (now minD maxD : Nat),
      parseAmount text = none →
      handleCreateDepositWizard ⟨w, 1, d⟩ text now minD maxD =
        (none, .validationFailed)) ∧
    (∀ (w : String) (d : FieldMap) (text : String) (now minD maxD a : Nat),
      parseAmount text = some a → a < minD →
      handleCreateDepositWizard ⟨w, 1, d⟩ text now minD maxD =
        (none, .validationFailed)) ∧
    (∀ (w : String) (d : FieldMap) (text : String) (now minD maxD a : Nat),
      parseAmount text = some a → maxD < a →
      handleCreateDepositWizard ⟨w, 1, d⟩ text now minD maxD =
        (none, .validationFailed)) ∧
    (∀ (text : String) (now minD maxD a : Nat),
      parseAmount text = some a → minD ≤ a → a ≤ maxD →
      runDepositWizard text now minD maxD =
        (none, .confirm "deposit" (depositMap a now)
          ("confirm_deposit:" ++ jsonStringify (depositMap a now)))) ∧
    (∀ (w : String) (d : FieldMap) (text : String) (now : Nat),
      parseAmount text = none →
      handleCreateTransferWizard ⟨w, 4, d⟩ text now =
        (none, .validationFailed)) ∧
    (∀ (w : String) (d : FieldMap) (text : String) (now a : Nat),
      parseAmount text = some a → a < 1000 →
      handleCreateTransferWizard ⟨w, 4, d⟩ text now =
        (none, .validationFailed)) ∧
    (∀ (w : String) (d : FieldMap) (text : String) (now a : Nat),
      parseAmount text = some a → 1000 ≤ a →
      handleCreateTransferWizard ⟨w, 4, d⟩ text now =
        (none, .confirm "transfer"
          (jsSet (jsSet d "nominal" (.num a)) "ref_id"
            (.str ("TRF-" ++ natToDecStr now)))
          ("confirm_transfer:" ++ jsonStringify
            (jsSet (jsSet d "nominal" (.num a)) "ref_id"
              (.str ("TRF-" ++ natToDecStr now)))))) := by
  refine ⟨?_, ?_, ?_, ?_, ?_, ?_, ?_⟩
  · intro w d text now minD maxD hp
    simp only [handleCreateDepositWizard]
    rw [hp]
  · intro w d text now minD maxD a hp hlt
    simp only [handleCreateDepositWizard]
    rw [hp]
    dsimp only
    rw [if_pos hlt]
  · intro w d text now minD maxD a hp hgt
    simp only [handleCreateDepositWizard]
    rw [hp]
    dsimp only
    by_cases hmin : a < minD
    · rw [if_pos hmin]
    · rw [if_neg hmin, if_pos hgt]
  · intro text now minD maxD a hp h1 h2
    exact runDepositWizard_spec text now minD maxD a hp h1 h2
  · intro w d text now hp
    simp only [handleCreateTransferWizard]
    rw [hp]
  · intro w d text now a hp hlt
    simp only [handleCreateTransferWizard]
    rw [hp]
    dsimp only
    rw [if_pos hlt]
  · intro w d text now a hp hge
    simp only [handleCreateTransferWizard]
    rw [hp]
    dsimp only
    rw [if_neg (Nat.not_lt.mpr hge)]

/-- C3 amended witness: concrete amount inputs — `"abc"` fails to parse,
`"999"` is below the deposit minimum 1000, `"20.000.000"` exceeds the
deposit maximum 10000000, `"5000"` is accepted by the deposit wizard, and
the transfer wizard rejects `"999"` and accepts `"Rp 10.000"`. -/
theorem C3_amount_validation_witness :
    handleCreateDepositWizard ⟨"create_deposit", 1, []⟩ "abc" 5 1000
        10000000 = (none, .validationFailed) ∧
    handleCreateDepositWizard ⟨"create_deposit", 1, []⟩ "999" 5 1000
        10000000 = (none, .validationFailed) ∧
    handleCreateDepositWizard ⟨"create_deposit", 1, []⟩ "20.000.000" 5 1000
        10000000 = (none, .validationFailed) ∧
    runDepositWizard "5000" 5 1000 10000000 =
      (none, .confirm "deposit" (depositMap 5000 5)
        ("confirm_deposit:" ++ jsonStringify (depositMap 5000 5))) ∧
    handleCreateTransferWizard ⟨"create_transfer", 4, []⟩ "999" 5 =
      (none, .validationFailed) ∧
    handleCreateTransferWizard ⟨"create_transfer", 4, []⟩ "Rp 10.000" 5 =
      (none, .confirm "transfer"
        (jsSet (jsSet [] "nominal" (.num 10000)) "ref_id"
          (.str ("TRF-" ++ natToDecStr 5)))
        ("confirm_transfer:" ++ jsonStringify
          (jsSet (jsSet [] "nominal" (.num 10000)) "ref_id"
            (.str ("TRF-" ++ natToDecStr 5))))) := by
  refine ⟨?_, ?_, ?_, ?_, ?_, ?_⟩
  · exact C3_amount_validation.1 "create_deposit" [] "abc" 5 1000 10000000
      (by decide)
  · exact C3_amount_validation.2.1 "create_deposit" [] "999" 5 1000
      10000000 999 (by decide) (by decide)
  · exact C3_amount_validation.2.2.1 "create_deposit" [] "20.000.000" 5
      1000 10000000 20000000 (by decide) (by decide)
  · exact C3_amount_validation.2.2.2.1 "5000" 5 1000 10000000 5000
      (by decide) (by decide) (by decide)
  · exact C3_amount_validation.2.2.2.2.2.1 "create_transfer" [] "999" 5 999
      (by decide) (by decide)
  · exact C3_amount_validation.2.2.2.2.2.2 "create_transfer" [] "Rp 10.000"
      5 10000 (by decide) (by decide)

/-! ## C4 — complete wizard runs -/

/-- C4 counterexample: running the check_account wizard to completion
produces the immediate account-check on a field map holding exactly
`bank_code` and `account_number` — no reference id of any form is generated
for this wizard kind, refuting the universally quantified claim. -/
theorem C4_finalize_counterexample :
    runCheckAccountWizard "ovo" "123" =
      (none, .apiCheck [("bank_code", .str "ovo"),
        ("account_number", .str "123")]) ∧
    List.lookup "ref_id"
      [("bank_code", FieldVal.str "ovo"),
       ("account_number", FieldVal.str "123")] = none := by
  constructor
  · decide
  · decide

/-- C4 amended: a complete create_transfer run over valid inputs finalizes
with exactly `kode_bank`, `nomor_akun`, `nama_pemilik`, `nominal` and a
generated `ref_id` equal to `TRF-` followed by the decimal `Date.now()`
value, deleting the session; a complete create_deposit run finalizes with
exactly `nominal` and a `DEP-`-prefixed `ref_id`, deleting the session; a
complete check_account run ends with the immediate account check on exactly
`bank_code` and `account_number` — with no reference id — and deletes the
session; and every generated reference-id suffix is all digits (pattern
`TRF-\d+` / `DEP-\d+`). -/
theorem C4_wizard_finalize :
    (∀ (t1 t2 t3 t4 : String) (now a : Nat),
      parseAmount t4 = some a → 1000 ≤ a →
      runTransferWizard t1 t2 t3 t4 now =
        (none, .confirm "transfer" (transferMap t1 t2 t3 a now)
          ("confirm_transfer:" ++
            jsonStringify (transferMap t1 t2 t3 a now)))) ∧
    (∀ (t : String) (now minD maxD a : Nat),
      parseAmount t = some a → minD ≤ a → a ≤ maxD →
      runDepositWizard t now minD maxD =
        (none, .confirm "deposit" (depositMap a now)
          ("confirm_deposit:" ++ jsonStringify (depositMap a now)))) ∧
    (∀ (t1 t2 : String),
      runCheckAccountWizard t1 t2 =
        (none, .apiCheck [("bank_code", .str (jsLowerTrim t1)),
          ("account_number", .str (jsTrim t2))]) ∧
      List.lookup "ref_id" [("bank_code", FieldVal.str (jsLowerTrim t1)),
        ("account_number", FieldVal.str (jsTrim t2))] = none) ∧
    (∀ now : Nat, (natToDecStr now).toList.all Char.isDigit = true) := by
  refine ⟨runTransferWizard_spec, runDepositWizard_spec, ?_, ?_⟩
  · intro t1 t2
    exact ⟨runCheckAccountWizard_spec t1 t2, rfl⟩
  · intro now
    exact natToDec_all_digits now

/-- C4 amended witness: the end-to-end scenario — inputs `"ovo"`,
`"62895600689900"`, `"Arfi"`, `"10000"` at clock 1700000000000 — finalizes
with exactly the expected field map and reference id `TRF-1700000000000`,
with no session left; the deposit and digit clauses instantiated
concretely. -/
theorem C4_wizard_finalize_witness :
    runTransferWizard "ovo" "62895600689900" "Arfi" "10000" 1700000000000 =
      (none, .confirm "transfer"
        [("kode_bank", .str "ovo"),
         ("nomor_akun", .str "62895600689900"),
         ("nama_pemilik", .str "Arfi"),
         ("nominal", .num 10000),
         ("ref_id", .str "TRF-1700000000000")]
        ("confirm_transfer:" ++ jsonStringify
          [("kode_bank", .str "ovo"),
           ("nomor_akun", .str "62895600689900"),
           ("nama_pemilik", .str "Arfi"),
           ("nominal", .num 10000),
           ("ref_id", .str "TRF-1700000000000")])) ∧
    runDepositWizard "5000" 42 1000 10000000 =
      (none, .confirm "deposit"
        [("nominal", .num 5000), ("ref_id", .str "DEP-42")]
        ("confirm_deposit:" ++ jsonStringify
          [("nominal", .num 5000), ("ref_id", .str "DEP-42")])) ∧
    (natToDecStr 1700000000000).toList.all Char.isDigit = true := by
  refine ⟨?_, ?_, C4_wizard_finalize.2.2.2 1700000000000⟩
  · have h := C4_wizard_finalize.1 "ovo" "62895600689900" "Arfi" "10000"
      1700000000000 10000 (by decide) (by decide)
    rw [h]
    decide
  · have h := C4_wizard_finalize.2.1 "5000" 42 1000 10000000 5000
      (by decide) (by decide) (by decide)
    rw [h]
    decide

/-! ## C9 — input normalization in the wizard steps -/

/-- C9: the bank-code steps of the check_account and create_transfer
wizards store the raw input lower-cased and trimmed, the account-number and
owner-name steps store it trimmed, and consequently the stored bank code
never carries leading/trailing whitespace or an upper-case ASCII letter
(codes 65-90), and trimmed fields never carry leading/trailing
whitespace. -/
theorem C9_input_normalization :
    (∀ (w : String) (d : FieldMap) (text : String),
      handleCheckAccountWizard ⟨w, 1, d⟩ text =
        (some ⟨w, 2, jsSet d "bank_code" (.str (jsLowerTrim text))⟩,
          .prompt "Masukkan nomor rekening/akun tujuan:")) ∧
    (∀ (w : String) (d : FieldMap) (text : String),
      handleCheckAccountWizard ⟨w, 2, d⟩ text =
        (none, .apiCheck (jsSet d "account_number" (.str (jsTrim text))))) ∧
    (∀ (w : String) (d : FieldMap) (text : String) (now : Nat),
      handleCreateTransferWizard ⟨w, 1, d⟩ text now =
        (some ⟨w, 2, jsSet d "kode_bank" (.str (jsLowerTrim text))⟩,
          .prompt "Masukkan nomor rekening/akun tujuan:")) ∧
    (∀ (w : String) (d : FieldMap) (text : String) (now : Nat),
      handleCreateTransferWizard ⟨w, 2, d⟩ text now =
        (some ⟨w, 3, jsSet d "nomor_akun" (.str (jsTrim text))⟩,
          .prompt "Masukkan nama pemilik rekening:")) ∧
    (∀ (w : String) (d : FieldMap) (text : String) (now : Nat),
      handleCreateTransferWizard ⟨w, 3, d⟩ text now =
        (some ⟨w, 4, jsSet d "nama_pemilik" (.str (jsTrim text))⟩,
          .prompt "Masukkan nominal transfer:")) ∧
    (∀ (text : String) (c : Char),
      ((jsLowerTrim text).toList.head? = some c →
        isJsWhitespace c = false) ∧
      ((jsLowerTrim text).toList.getLast? = some c →
        isJsWhitespace c = false) ∧
      (c ∈ (jsLowerTrim text).toList →
        ¬(65 ≤ c.toNat ∧ c.toNat ≤ 90))) ∧
    (∀ (text : String) (c : Char),
      ((jsTrim text).toList.head? = some c → isJsWhitespace c = false) ∧
      ((jsTrim text).toList.getLast? = some c →
        isJsWhitespace c = false)) := by
  refine ⟨fun w d text => rfl, fun w d text => rfl,
    fun w d text now => rfl, fun w d text now => rfl,
    fun w d text now => rfl, ?_, ?_⟩
  · intro text c
    refine ⟨?_, ?_, ?_⟩
    · intro h
      exact jsTrimList_head _ c (by simpa [jsLowerTrim, jsTrim, jsLower]
        using h)
    · intro h
      exact jsTrimList_getLast _ c (by simpa [jsLowerTrim, jsTrim, jsLower]
        using h)
    · intro h
      have h2 : c ∈ (jsLower text).toList.map id := by
        have h3 := mem_jsTrimList _ c
          (by simpa [jsLowerTrim, jsTrim, jsLower] using h)
        simpa [jsLower] using h3
      simp only [List.map_id] at h2
      have h4 : c ∈ text.toList.map jsLowerChar := by
        simpa [jsLower] using h2
      obtain ⟨c0, _, hc0⟩ := List.mem_map.mp h4
      rw [← hc0]
      exact jsLowerChar_not_upper c0
  · intro text c
    constructor
    · intro h
      exact jsTrimList_head _ c (by simpa [jsTrim] using h)
    · intro h
      exact jsTrimList_getLast _ c (by simpa [jsTrim] using h)

/-! ## JSON round-trip lemmas -/

theorem stringMk_toList (s : String) : (⟨s.toList⟩ : String) = s := by
  cases s
  rfl

theorem escList_cons (c : Char) (cs : List Char) :
    escList (c :: cs) = escChar c ++ escList cs := rfl

theorem parseStrBody_cons (c : Char) (cs : List Char) :
    parseStrBody (c :: cs) =
      if c = '"' then some ([], cs)
      else if c = '\\' then
        match cs with
        | [] => none
        | e :: rest2 =>
            match unescChar e with
            | none => none
            | some u => (parseStrBody rest2).map (fun p => (u :: p.1, p.2))
      else (parseStrBody cs).map (fun p => (c :: p.1, p.2)) := by
  conv_lhs => rw [parseStrBody.eq_def]

theorem parseStrBody_esc :
    ∀ (s rest : List Char), s.all goodChar = true →
      parseStrBody (escList s ++ '"' :: rest) = some (s, rest) := by
  intro s
  induction s with
  | nil =>
      intro rest _
      show parseStrBody ('"' :: rest) = some ([], rest)
      rw [parseStrBody_cons, if_pos rfl]
  | cons c cs ih =>
      intro rest h
      have hgood : goodChar c = true ∧ cs.all goodChar = true := by
        simpa using h
      rw [escList_cons]
      by_cases h1 : c = '"'
      · subst h1
        show parseStrBody ('\\' :: '"' :: (escList cs ++ '"' :: rest)) = _
        rw [parseStrBody_cons]
        norm_num [unescChar]
        rw [ih rest hgood.2]
        rfl
      · by_cases h2 : c = '\\'
        · subst h2
          show parseStrBody ('\\' :: '\\' :: (escList cs ++ '"' :: rest)) = _
          rw [parseStrBody_cons]
          norm_num [unescChar]
          rw [ih rest hgood.2]
          rfl
        · by_cases h3 : c = '\n'
          · subst h3
            show parseStrBody
              ('\\' :: 'n' :: (escList cs ++ '"' :: rest)) = _
            rw [parseStrBody_cons]
            norm_num [unescChar]
            rw [ih rest hgood.2]
            rfl
          · by_cases h4 : c = '\r'
            · subst h4
              show parseStrBody
                ('\\' :: 'r' :: (escList cs ++ '"' :: rest)) = _
              rw [parseStrBody_cons]
              norm_num [unescChar]
              rw [ih rest hgood.2]
              rfl
            · by_cases h5 : c = '\t'
              · subst h5
                show parseStrBody
                  ('\\' :: 't' :: (escList cs ++ '"' :: rest)) = _
                rw [parseStrBody_cons]
                norm_num [unescChar]
                rw [ih rest hgood.2]
                rfl
              · have he : escChar c = [c] := by
                  simp [escChar, h1, h2, h3, h4, h5]
                rw [he]
                show parseStrBody (c :: (escList cs ++ '"' :: rest)) = _
                rw [parseStrBody_cons, if_neg h1, if_neg h2, ih rest hgood.2]
                rfl

theorem takeWhile_all_append (p : Char → Bool) :
    ∀ (xs ys : List Char), xs.all p = true →
      (∀ y, ys.head? = some y → p y = false) →
      (xs ++ ys).takeWhile p = xs ∧ (xs ++ ys).dropWhile p = ys := by
  intro xs
  induction xs with
  | nil =>
      intro ys _ hy
      rcases ys with _ | ⟨y, ys'⟩
      · simp
      · have := hy y rfl
        simp [List.takeWhile_cons, List.dropWhile_cons, this]
  | cons x xs' ih =>
      intro ys hall hy
      have hx : p x = true ∧ xs'.all p = true := by simpa using hall
      obtain ⟨ht, hd⟩ := ih ys hx.2 hy
      simp [List.takeWhile_cons, List.dropWhile_cons, hx.1, ht, hd]

theorem parseNum_enc (n : Nat) (rest : List Char)
    (hrest : ∀ y, rest.head? = some y → y.isDigit = false) :
    parseNum (natToDec n ++ rest) = some (n, rest) := by
  obtain ⟨ht, hd⟩ := takeWhile_all_append Char.isDigit (natToDec n) rest
    (natToDec_all_digits n) hrest
  unfold parseNum
  rw [ht, hd]
  simp only [List.isEmpty_iff]
  rw [if_neg (natToDec_ne_nil n), natToDec_value]

theorem isDigit_toNat (c : Char) (h : c.isDigit = true) :
    48 ≤ c.toNat ∧ c.toNat ≤ 57 := by
  simp only [Char.isDigit, Bool.and_eq_true, decide_eq_true_eq] at h
  exact ⟨h.1, h.2⟩

theorem parseVal_enc (v : FieldVal) (rest : List Char)
    (hv : goodVal v = true)
    (hrest : ∀ y, rest.head? = some y → y.isDigit = false) :
    parseVal (jsonValue v ++ rest) = some (v, rest) := by
  cases v with
  | str s =>
      show parseVal ('"' :: (escList s.toList ++ ['"']) ++ rest) = _
      have : ('"' :: (escList s.toList ++ ['"'])) ++ rest =
          '"' :: (escList s.toList ++ '"' :: rest) := by simp
      have hs : s.toList.all goodChar = true := by
        simpa only [goodVal, goodStr] using hv
      rw [this, parseVal, if_pos rfl, parseStrBody_esc s.toList rest hs]
      simp [stringMk_toList]
  | num n =>
      show parseVal (natToDec n ++ rest) = _
      rcases hnd : natToDec n with _ | ⟨d, ds⟩
      · exact absurd hnd (natToDec_ne_nil n)
      · have hdd : d.isDigit = true := by
          have := natToDec_all_digits n
          rw [hnd] at this
          simp at this
          exact this.1
        have hdq : ¬(d = '"') := by
          intro hq
          rw [hq] at hdd
          simp [Char.isDigit] at hdd
        rw [List.cons_append, parseVal, if_neg hdq, ← List.cons_append,
          ← hnd, parseNum_enc n rest hrest]
        rfl

theorem parseMember_enc (k : String) (v : FieldVal) (rest : List Char)
    (hk : goodStr k = true) (hv : goodVal v = true)
    (hrest : ∀ y, rest.head? = some y → y.isDigit = false) :
    parseMember (('"' :: (escList k.toList ++ ['"', ':'] ++ jsonValue v))
      ++ rest) = some ((k, v), rest) := by
  have hassoc :
      ('"' :: (escList k.toList ++ ['"', ':'] ++ jsonValue v)) ++ rest =
        '"' :: (escList k.toList ++ '"' :: (':' :: (jsonValue v ++ rest))) := by
    simp
  rw [hassoc, parseMember, if_pos rfl,
    parseStrBody_esc k.toList _ (by simpa only [goodStr] using hk)]
  dsimp only
  rw [if_pos rfl, parseVal_enc v rest hv hrest]
  simp [stringMk_toList]

theorem jsonMembers_length :
    ∀ ms : FieldMap, ms.length ≤ (jsonMembers ms).length := by
  intro ms
  induction ms with
  | nil => simp [jsonMembers]
  | cons kv rest ih =>
      rcases kv with ⟨k, v⟩
      rcases rest with _ | ⟨kv2, rest2⟩
      · simp [jsonMembers]
      · simp only [jsonMembers, List.length_cons, List.length_append] at ih ⊢
        omega

theorem parseMembersF_enc :
    ∀ (ms : FieldMap) (fuel : Nat) (rest : List Char),
      ms ≠ [] → goodMap ms = true → ms.length ≤ fuel →
      (∀ y, rest.head? = some y → y.isDigit = false ∧ ¬(y = ',')) →
      parseMembersF fuel (jsonMembers ms ++ rest) = some (ms, rest) := by
  intro ms
  induction ms with
  | nil => intro fuel rest hne; exact absurd rfl hne
  | cons kv ms' ih =>
      rcases kv with ⟨k, v⟩
      intro fuel rest _ hgood hlen hrest
      have hsplit : (goodStr k = true ∧ goodVal v = true) ∧
          goodMap ms' = true := by
        simpa only [goodMap, List.all_cons, Bool.and_eq_true] using hgood
      have h1 : goodStr k = true := hsplit.1.1
      have h2 : goodVal v = true := hsplit.1.2
      have h3 : goodMap ms' = true := hsplit.2
      rcases fuel with _ | f
      · simp at hlen
      · rcases ms' with _ | ⟨kv2, ms''⟩
        · have hm := parseMember_enc k v rest h1 h2
            (fun y hy => (hrest y hy).1)
          show parseMembersF (f + 1)
            (('"' :: (escList k.toList ++ ['"', ':'] ++ jsonValue v))
              ++ rest) = _
          simp only [parseMembersF]
          rw [hm]
          rcases rest with _ | ⟨y, rest'⟩
          · rfl
          · have hy := hrest y rfl
            dsimp only
            rw [if_neg hy.2]
        · have hm := parseMember_enc k v
            (',' :: (jsonMembers (kv2 :: ms'') ++ rest)) h1 h2
            (by
              intro y hy
              simp at hy
              subst hy
              decide)
          have hshape : jsonMembers ((k, v) :: kv2 :: ms'') ++ rest =
              ('"' :: (escList k.toList ++ ['"', ':'] ++ jsonValue v)) ++
                (',' :: (jsonMembers (kv2 :: ms'') ++ rest)) := by
            simp [jsonMembers]
          rw [hshape]
          simp only [parseMembersF]
          rw [hm]
          dsimp only
          rw [if_pos rfl,
            ih f rest (by simp) h3 (by simp at hlen ⊢; omega) hrest]
          rfl

theorem jsonMembers_cons_head (k : String) (v : FieldVal) (ms : FieldMap) :
    ∃ t, jsonMembers ((k, v) :: ms) = '"' :: t := by
  cases ms
  · exact ⟨_, rfl⟩
  · exact ⟨_, rfl⟩

theorem jsonParseObj_mk (c : Char) (rest : List Char) :
    jsonParseObj ⟨c :: rest⟩ =
      if c = '\x7b' then
        match rest with
        | [] => none
        | c2 :: rest2 =>
            if c2 = '\x7d' then (if rest2.isEmpty then some [] else none)
            else
              match parseMembersF rest.length rest with
              | none => none
              | some (ms, rtail) =>
                  match rtail with
                  | [] => none
                  | c3 :: tail =>
                      if c3 = '\x7d' then
                        (if tail.isEmpty then some ms else none)
                      else none
      else none := rfl

theorem jsonParseObj_stringify (ms : FieldMap) (hne : ms ≠ [])
    (hgood : goodMap ms = true) :
    jsonParseObj (jsonStringify ms) = some ms := by
  rcases hms : ms with _ | ⟨⟨k, v⟩, ms'⟩
  · exact absurd hms hne
  obtain ⟨t, ht⟩ := jsonMembers_cons_head k v ms'
  have hq : ¬('"' = '\x7d') := by decide
  have hcur : ¬('\x7b' = '\x7d') := by decide
  have hparse := parseMembersF_enc ((k, v) :: ms')
    (jsonMembers ((k, v) :: ms') ++ ['\x7d']).length ['\x7d']
    (by simp) (hms ▸ hgood)
    (by
      have h0 := jsonMembers_length ((k, v) :: ms')
      simp only [List.length_cons, List.length_append,
        List.length_singleton] at h0 ⊢
      omega)
    (by intro y hy; simp at hy; subst hy; exact ⟨by decide, by decide⟩)
  show jsonParseObj ⟨'\x7b' :: (jsonMembers ((k, v) :: ms') ++ ['\x7d'])⟩ =
    some ((k, v) :: ms')
  rw [jsonParseObj_mk, if_pos rfl, ht, List.cons_append]
  dsimp only
  rw [if_neg hq, ← List.cons_append, ← ht, hparse]
  rfl

theorem startsWithList_append :
    ∀ (xs ys : List Char), startsWithList xs (xs ++ ys) = true := by
  intro xs ys
  induction xs with
  | nil => rfl
  | cons x xs' ih => simp [startsWithList, ih]

theorem decodeConfirmCallback_enc (tag : String) (m : FieldMap)
    (hne : m ≠ []) (hgood : goodMap m = true) :
    decodeConfirmCallback tag (tag ++ jsonStringify m) = some m := by
  unfold decodeConfirmCallback
  have htl : (tag ++ jsonStringify m).toList =
      tag.toList ++ (jsonStringify m).toList := by
    simp [String.toList]
  rw [htl, if_pos (startsWithList_append tag.toList _), List.drop_left,
    stringMk_toList, jsonParseObj_stringify m hne hgood]

theorem goodChar_of_isDigit (c : Char) (h : c.isDigit = true) :
    goodChar c = true := by
  have hb := isDigit_toNat c h
  simp only [goodChar, Bool.or_eq_true, decide_eq_true_eq]
  left; left; left
  omega

theorem goodStr_jsTrim (s : String) (h : goodStr s = true) :
    goodStr (jsTrim s) = true := by
  simp only [goodStr, List.all_eq_true] at h ⊢
  intro c hc
  exact h c (mem_jsTrimList _ c (by simpa [jsTrim] using hc))

theorem goodChar_jsLowerChar (c : Char) (h : goodChar c = true) :
    goodChar (jsLowerChar c) = true := by
  unfold jsLowerChar
  by_cases hc : 65 ≤ c.toNat ∧ c.toNat ≤ 90
  · rw [if_pos hc]
    have h2 := charToNat_ofNat (c.toNat + 32) (by omega)
    simp only [goodChar, Bool.or_eq_true, decide_eq_true_eq]
    left; left; left
    omega
  · rw [if_neg hc]
    exact h

theorem goodStr_jsLower (s : String) (h : goodStr s = true) :
    goodStr (jsLower s) = true := by
  simp only [goodStr, List.all_eq_true] at h ⊢
  intro c hc
  have hm : c ∈ s.toList.map jsLowerChar := by simpa [jsLower] using hc
  obtain ⟨c0, hc0m, hc0⟩ := List.mem_map.mp hm
  rw [← hc0]
  exact goodChar_jsLowerChar c0 (h c0 hc0m)

theorem goodStr_jsLowerTrim (s : String) (h : goodStr s = true) :
    goodStr (jsLowerTrim s) = true :=
  goodStr_jsTrim _ (goodStr_jsLower _ h)

theorem goodStr_append (s t : String) (hs : goodStr s = true)
    (ht : goodStr t = true) : goodStr (s ++ t) = true := by
  simp only [goodStr, List.all_eq_true] at hs ht ⊢
  intro c hc
  have : c ∈ s.toList ++ t.toList := by simpa [String.toList] using hc
  rcases List.mem_append.mp this with h | h
  · exact hs c h
  · exact ht c h

theorem goodStr_natToDecStr (n : Nat) : goodStr (natToDecStr n) = true := by
  simp only [goodStr, natToDecStr, List.all_eq_true]
  intro c hc
  have hall := natToDec_all_digits n
  rw [List.all_eq_true] at hall
  exact goodChar_of_isDigit c (hall c hc)

theorem goodMap_transferMap (t1 t2 t3 : String) (a now : Nat)
    (h1 : goodStr t1 = true) (h2 : goodStr t2 = true)
    (h3 : goodStr t3 = true) :
    goodMap (transferMap t1 t2 t3 a now) = true := by
  simp only [goodMap, transferMap, List.all_cons, List.all_nil,
    Bool.and_eq_true, goodVal]
  exact ⟨⟨by decide, goodStr_jsLowerTrim t1 h1⟩,
    ⟨by decide, goodStr_jsTrim t2 h2⟩,
    ⟨by decide, goodStr_jsTrim t3 h3⟩,
    ⟨by decide, trivial⟩,
    ⟨by decide, goodStr_append "TRF-" _ (by decide)
      (goodStr_natToDecStr now)⟩, trivial⟩

theorem goodMap_depositMap (a now : Nat) :
    goodMap (depositMap a now) = true := by
  simp only [goodMap, depositMap, List.all_cons, List.all_nil,
    Bool.and_eq_true, goodVal]
  exact ⟨⟨by decide, trivial⟩,
    ⟨by decide, goodStr_append "DEP-" _ (by decide)
      (goodStr_natToDecStr now)⟩, trivial⟩

/-! ## C8 — confirmation payload round-trip -/

/-- C8: the pending-confirmation payload round-trips through serialization
unchanged.  Generally, for every non-empty field map of escapable strings
and integers, stripping the callback tag and applying the modelled
`JSON.parse` to the tag-plus-`JSON.stringify` payload reconstructs exactly
the map; in particular for the field maps collected by complete
create_transfer and create_deposit wizard runs (bank code, account number,
owner name, amount, reference id), decoding at acceptance time
reconstructs exactly what the wizard collected. -/
theorem C8_payload_roundtrip :
    (∀ (tag : String) (m : FieldMap), m ≠ [] → goodMap m = true →
      decodeConfirmCallback tag (tag ++ jsonStringify m) = some m) ∧
    (∀ (t1 t2 t3 t4 : String) (now a : Nat),
      parseAmount t4 = some a → 1000 ≤ a →
      goodStr t1 = true → goodStr t2 = true → goodStr t3 = true →
      runTransferWizard t1 t2 t3 t4 now =
        (none, .confirm "transfer" (transferMap t1 t2 t3 a now)
          ("confirm_transfer:" ++
            jsonStringify (transferMap t1 t2 t3 a now))) ∧
      decodeConfirmCallback "confirm_transfer:"
        ("confirm_transfer:" ++ jsonStringify (transferMap t1 t2 t3 a now))
          = some (transferMap t1 t2 t3 a now)) ∧
    (∀ (t : String) (now minD maxD a : Nat),
      parseAmount t = some a → minD ≤ a → a ≤ maxD →
      runDepositWizard t now minD maxD =
        (none, .confirm "deposit" (depositMap a now)
          ("confirm_deposit:" ++ jsonStringify (depositMap a now))) ∧
      decodeConfirmCallback "confirm_deposit:"
        ("confirm_deposit:" ++ jsonStringify (depositMap a now)) =
          some (depositMap a now)) := by
  refine ⟨decodeConfirmCallback_enc, ?_, ?_⟩
  · intro t1 t2 t3 t4 now a hp ha h1 h2 h3
    exact ⟨runTransferWizard_spec t1 t2 t3 t4 now a hp ha,
      decodeConfirmCallback_enc _ _ (by simp [transferMap])
        (goodMap_transferMap t1 t2 t3 a now h1 h2 h3)⟩
  · intro t now minD maxD a hp hmin hmax
    exact ⟨runDepositWizard_spec t now minD maxD a hp hmin hmax,
      decodeConfirmCallback_enc _ _ (by simp [depositMap])
        (goodMap_depositMap a now)⟩

/-- C8 witness: the payload built by the end-to-end transfer scenario
(and the deposit analogue) decodes back to exactly the collected field
map. -/
theorem C8_payload_roundtrip_witness :
    decodeConfirmCallback "confirm_transfer:"
      ("confirm_transfer:" ++ jsonStringify
        (transferMap "ovo" "62895600689900" "Arfi" 10000 1700000000000)) =
      some (transferMap "ovo" "62895600689900" "Arfi" 10000 1700000000000) ∧
    decodeConfirmCallback "confirm_deposit:"
      ("confirm_deposit:" ++ jsonStringify (depositMap 5000 42)) =
      some (depositMap 5000 42) := by
  constructor
  · exact (C8_payload_roundtrip.2.1 "ovo" "62895600689900" "Arfi" "10000"
      1700000000000 10000 (by decide) (by decide) (by decide) (by decide)
      (by decide)).2
  · exact (C8_payload_roundtrip.2.2 "5000" 42 1000 10000000 5000
      (by decide) (by decide) (by decide)).2

/-- C9 witness: the normalization clauses instantiated on the raw input
`"  OVO "`, whose stored bank code is `"ovo"`. -/
theorem C9_input_normalization_witness :
    handleCheckAccountWizard ⟨"check_account", 1, []⟩ "  OVO " =
      (some ⟨"check_account", 2,
        jsSet [] "bank_code" (.str (jsLowerTrim "  OVO "))⟩,
        .prompt "Masukkan nomor rekening/akun tujuan:") ∧
    ((jsLowerTrim "  OVO ").toList.head? = some 'o' →
      isJsWhitespace 'o' = false) ∧
    ('o' ∈ (jsLowerTrim "  OVO ").toList →
      ¬(65 ≤ 'o'.toNat ∧ 'o'.toNat ≤ 90)) := by
  refine ⟨C9_input_normalization.1 "check_account" [] "  OVO ", ?_, ?_⟩
  · intro h
    exact (C9_input_normalization.2.2.2.2.2.1 "  OVO " 'o').1 h
  · intro h
    exact (C9_input_normalization.2.2.2.2.2.1 "  OVO " 'o').2.2 h

end TransferBot
